import Mathlib

/-!
Formal model of the FPL data scraper (`src/scripts/scrape_data.py`).

Modelling conventions:
* A pandas cell value is `Val`: `Val.num q` is a numeric value (a pandas
  numeric string such as `"3.5"` is modelled directly as the number it
  converts to, since `pd.to_numeric` treats them identically), `Val.str s`
  is a non-numeric string, and `Val.na` is `NaN`/`pd.NA`/`None`.
* Machine floats are modelled as exact rationals `ℚ`.
* A `DataFrame` is a list of column names plus a list of rows; a row is a
  total function from column names to `Val`.  Reading a column that is not
  in `cols` would be a `KeyError` in pandas; here such a read returns
  whatever the row function yields, and the theorems' hypotheses keep every
  read inside the declared columns.
* Column-by-column loops that mutate a dataframe (`for col in ...:`) are
  modelled with the `colFold` combinator: each iteration replaces the
  column list and maps a per-row update over the rows.
-/

namespace FPL

/-- One pandas cell. -/
inductive Val where
  | num (q : ℚ)
  | str (s : String)
  | na
deriving DecidableEq

/-- One cell of `pd.to_numeric(s, errors="coerce").fillna(default)`
(the body of `FPLDataScraper._to_numeric_series`): non-numeric values
coerce to `NaN` and are then filled with the default. -/
def toNumFill (d : ℚ) : Val → ℚ
  | Val.num q => q
  | _ => d

/-- One cell of `pd.to_numeric(s, errors="coerce")` with no fill. -/
def toNumCoerce : Val → Val
  | Val.num q => Val.num q
  | _ => Val.na

/-- Python `int(x)` / `.astype(int)` on a rational: truncation toward zero. -/
def ratTrunc (q : ℚ) : Int := Int.tdiv q.num q.den

/-- An `Option ℚ` (where `none` is a float `NaN`) back to a pandas cell. -/
def optToVal : Option ℚ → Val
  | some q => Val.num q
  | none => Val.na

/-- A pandas dataframe: declared columns plus rows (total functions). -/
structure DataFrame where
  cols : List String
  rows : List (String → Val)

/-- Row `i` of a dataframe (all-`na` row when out of range). -/
def rowAt (df : DataFrame) (i : Nat) : String → Val :=
  df.rows.getD i (fun _ => Val.na)

/-- Cell at row `i`, column `c`. -/
def cellAt (df : DataFrame) (i : Nat) (c : String) : Val :=
  rowAt df i c

/-- Model of `FPLDataScraper._ensure_columns`: add every missing requested column as
`NA`, then select exactly the requested columns in order.  Also models a
plain pandas column selection `df[cols]` (the two coincide whenever all of
`cs` are already present, which the hypotheses of the theorems below
guarantee at such call sites). -/
def ensureColumns (df : DataFrame) (cs : List String) : DataFrame :=
  { cols := cs,
    rows := df.rows.map (fun r s => if s ∈ cs ∧ s ∈ df.cols then r s else Val.na) }

/-- Model of `df[c] = v` for a scalar `v`: overwrite column `c` everywhere, adding it
to the column list if missing. -/
def setCol (df : DataFrame) (c : String) (v : Val) : DataFrame :=
  { cols := if c ∈ df.cols then df.cols else df.cols ++ [c],
    rows := df.rows.map (fun r s => if s = c then v else r s) }

/-- Column-list effect of an assignment `df[g c] = ...`: append the target
column if it is missing. -/
def addColIf (g : String → String) (cols : List String) (c : String) : List String :=
  if g c ∈ cols then cols else cols ++ [g c]

/-- A `for col in cs:` loop over a dataframe: each iteration replaces the
column list via `cf` and maps `rf` (which may consult the current column
list) over the rows. -/
def colFold (cf : List String → String → List String)
    (rf : List String → String → (String → Val) → (String → Val))
    (df : DataFrame) (cs : List String) : DataFrame :=
  cs.foldl (fun d c => { cols := cf d.cols c, rows := d.rows.map (rf d.cols c) }) df

/-- The per-row function accumulated by `colFold` across the loop. -/
def rowFoldF (cf : List String → String → List String)
    (rf : List String → String → (String → Val) → (String → Val)) :
    List String → List String → (String → Val) → (String → Val)
  | _, [], r => r
  | cols, c :: cs, r => rowFoldF cf rf (cf cols c) cs (rf cols c r)

/-! ### Column vocabularies (verbatim from `FPLDataScraper`) -/

/-- The list `FPLDataScraper.ID_COLS`. -/
def ID_COLS : List String := ["id", "first_name", "second_name", "web_name"]

/-- The list `FPLDataScraper.SNAPSHOT_COLS` (point-in-time fields, never differenced). -/
def SNAPSHOT_COLS : List String :=
  ["status", "news", "news_added", "now_cost", "now_cost_rank", "now_cost_rank_type",
   "selected_by_percent", "selected_rank", "selected_rank_type", "form", "form_rank",
   "form_rank_type", "event_points", "cost_change_event", "cost_change_event_fall",
   "cost_change_start", "cost_change_start_fall", "transfers_in_event",
   "transfers_out_event", "value_form", "value_season", "ep_next", "ep_this",
   "points_per_game", "points_per_game_rank", "points_per_game_rank_type",
   "chance_of_playing_next_round", "chance_of_playing_this_round", "influence_rank",
   "influence_rank_type", "creativity_rank", "creativity_rank_type", "threat_rank",
   "threat_rank_type", "ict_index_rank", "ict_index_rank_type",
   "corners_and_indirect_freekicks_order", "direct_freekicks_order", "penalties_order",
   "set_piece_threat", "corners_and_indirect_freekicks_text", "direct_freekicks_text",
   "penalties_text", "expected_goals_per_90", "expected_assists_per_90",
   "expected_goal_involvements_per_90", "expected_goals_conceded_per_90", "saves_per_90",
   "clean_sheets_per_90", "goals_conceded_per_90", "starts_per_90",
   "defensive_contribution_per_90"]

/-- The list `FPLDataScraper.CUMULATIVE_COLS` (season-running totals, differenced). -/
def CUMULATIVE_COLS : List String :=
  ["total_points", "minutes", "goals_scored", "assists", "clean_sheets",
   "goals_conceded", "own_goals", "penalties_saved", "penalties_missed",
   "yellow_cards", "red_cards", "saves", "starts", "bonus", "bps", "transfers_in",
   "transfers_out", "dreamteam_count", "expected_goals", "expected_assists",
   "expected_goal_involvements", "expected_goals_conceded", "influence", "creativity",
   "threat", "ict_index", "tackles", "clearances_blocks_interceptions", "recoveries",
   "defensive_contribution"]

/-- The output schema `ID_COLS + ["gw"] + SNAPSHOT_COLS + CUMULATIVE_COLS`
used by the snapshot builder, the delta engine and the backfill path. -/
def out_cols : List String := ID_COLS ++ ["gw"] ++ SNAPSHOT_COLS ++ CUMULATIVE_COLS

/-- The list `numeric_like_snapshot` inside `build_cumulative_playerstats_snapshot`. -/
def numeric_like_snapshot : List String :=
  ["now_cost", "selected_by_percent", "form", "points_per_game", "ep_next", "ep_this"]

/-- The list `hist_fields` inside `backfill_last_gw_discrete_from_element_summary`. -/
def hist_fields : List String :=
  ["minutes", "goals_scored", "assists", "clean_sheets", "goals_conceded", "own_goals",
   "penalties_saved", "penalties_missed", "yellow_cards", "red_cards", "saves", "bonus",
   "bps", "expected_goals", "expected_assists", "expected_goal_involvements",
   "expected_goals_conceded"]

/-! ### Gameweek detection -/

/-- One entry of the bootstrap `events` array: `ev.get("id")` (which can be
absent, hence `Option`), and the truthiness of `ev.get("finished")` and
`ev.get("data_checked")`. -/
structure Event where
  id : Option Int
  finished : Bool
  data_checked : Bool

/-- Model of `FPLDataScraper.get_last_completed_gameweek`: the last event that is
finished and data_checked; `int(last_gw or 1)` maps a missing or zero id
to `1`. -/
def get_last_completed_gameweek (events : List Event) : Int :=
  let last_gw := events.foldl
    (fun acc ev => if ev.finished && ev.data_checked then ev.id else acc)
    (none : Option Int)
  match last_gw with
  | none => 1
  | some n => if n = 0 then 1 else n

/-! ### Snapshot builder -/

/-- Per-row update for `snap[col] = self._to_numeric_series(snap[col], default=0.0)`. -/
def assignNumRowF : List String → String → (String → Val) → (String → Val) :=
  fun _ c r s => if s = c then Val.num (toNumFill 0 (r c)) else r s

/-- Per-row update for
`if col in snap.columns: snap[col] = pd.to_numeric(snap[col], errors="coerce")`. -/
def coerceIfPresentRowF : List String → String → (String → Val) → (String → Val) :=
  fun cols c r s => if c ∈ cols then (if s = c then toNumCoerce (r c) else r s) else r s

/-- Model of `FPLDataScraper.build_cumulative_playerstats_snapshot`: empty input gives
an empty frame; otherwise tag with the gameweek, normalise to the full
schema, coerce cumulative columns to numbers (default 0) and coerce the
numeric-like snapshot columns (leaving unparseable values null). -/
def build_cumulative_playerstats_snapshot (elementsDf : DataFrame) (gw : Int) : DataFrame :=
  if elementsDf.rows.isEmpty || elementsDf.cols.isEmpty then { cols := [], rows := [] }
  else
    let withGw := setCol elementsDf "gw" (Val.num (gw : ℚ))
    let snap := ensureColumns withGw out_cols
    let snap := colFold (addColIf (fun c => c)) assignNumRowF snap CUMULATIVE_COLS
    colFold (fun cols _ => cols) coerceIfPresentRowF snap numeric_like_snapshot

/-! ### Delta engine -/

/-- Name a previous-snapshot column receives after the merge: pandas applies
the `"_prev"` suffix exactly to the columns that clash with the left frame. -/
def prevOutName (curCols : List String) (c : String) : String :=
  if c ∈ curCols then c ++ "_prev" else c

/-- One output row of
`current_snapshot.merge(prev_small, on="id", how="left", suffixes=("", "_prev"))`:
left columns come from the left row, previous columns (under their possibly
suffixed name) from the matched previous row, `NA` when unmatched. -/
def combineRow (curCols prevNonKey : List String) (r : String → Val)
    (matched : Option (String → Val)) : String → Val :=
  fun s =>
    if s ∈ curCols then r s
    else
      match prevNonKey.find? (fun c => prevOutName curCols c == s) with
      | some c =>
        match matched with
        | some pr => pr c
        | none => Val.na
      | none => Val.na

/-- A left merge on `"id"`: every left row is joined with every matching
right row (an unmatched left row survives with `NA` right columns). -/
def mergeLeftOnId (cur prev : DataFrame) : DataFrame :=
  let prevNonKey := prev.cols.filter (fun c => c ≠ "id")
  { cols := cur.cols ++ prevNonKey.map (prevOutName cur.cols),
    rows := cur.rows.flatMap (fun r =>
      let ms := prev.rows.filter (fun pr => pr "id" == r "id")
      if ms.isEmpty then [combineRow cur.cols prevNonKey r none]
      else ms.map (fun pr => combineRow cur.cols prevNonKey r (some pr))) }

/-- Column-list effect of one iteration of the differencing loop: the only
assignment that can create a column is `merged[prev_col] = 0.0`. -/
def diffColsF : List String → String → List String :=
  addColIf (fun c => c ++ "_prev")

/-- The row after `if prev_col not in merged.columns: merged[prev_col] = 0.0`
in the differencing loop. -/
def diffR1 (cols : List String) (c : String) (r : String → Val) : String → Val :=
  fun s => if c ++ "_prev" ∈ cols then r s else (if s = c ++ "_prev" then Val.num 0 else r s)

/-- Per-row effect of one iteration of the differencing loop in
`compute_discrete_gameweek_stats`: create `col_prev` as 0 if missing,
coerce both columns to numbers, difference them, and keep the (coerced)
current value where the difference is negative. -/
def diffRowF : List String → String → (String → Val) → (String → Val) :=
  fun cols c r s =>
    if s = c then
      Val.num
        (if 0 ≤ toNumFill 0 (diffR1 cols c r c) - toNumFill 0 (diffR1 cols c r (c ++ "_prev"))
         then toNumFill 0 (diffR1 cols c r c) - toNumFill 0 (diffR1 cols c r (c ++ "_prev"))
         else toNumFill 0 (diffR1 cols c r c))
    else if s = c ++ "_prev" then Val.num (toNumFill 0 (diffR1 cols c r (c ++ "_prev")))
    else diffR1 cols c r s

/-- Model of `FPLDataScraper.compute_discrete_gameweek_stats`. -/
def compute_discrete_gameweek_stats (cur prev : DataFrame) : DataFrame :=
  let prev_cols := "id" :: CUMULATIVE_COLS.filter (fun c => c ∈ prev.cols)
  let prev_small := ensureColumns prev prev_cols
  let merged := mergeLeftOnId cur prev_small
  let diffed := colFold diffColsF diffRowF merged CUMULATIVE_COLS
  ensureColumns diffed out_cols

/-! ### History-aggregator (backfill) path -/

/-- One entry of `element-summary`'s `history` array: `int(h.get("round", -1))`
already applied, plus the raw JSON fields (`none` when a key is absent). -/
structure HistEntry where
  round : Int
  vals : String → Option Val

/-- One cell of `float(pd.to_numeric(h.get(k, 0), errors="coerce") or 0.0)`:
an absent key defaults to `0`; a non-numeric value coerces to `NaN`, which
is truthy in Python so the `or 0.0` does not repair it (result `none`). -/
def histVal (v : Option Val) : Option ℚ :=
  match v.getD (Val.num 0) with
  | Val.num q => some q
  | _ => none

/-- Float addition with `NaN` propagation. -/
def nanAdd : Option ℚ → Option ℚ → Option ℚ
  | some a, some b => some (a + b)
  | _, _ => none

/-- The value `agg[k]` after summing all history entries of the target round. -/
def aggFor (hist : List HistEntry) (gw : Int) (k : String) : Option ℚ :=
  (hist.filter (fun h => h.round == gw)).foldl
    (fun acc h => nanAdd acc (histVal (h.vals k))) (some 0)

/-- Model of `results.get(int(x), dict()).get(k, 0.0)`: the dict holds an entry for every
id in `ids`; a failed fetch contributed the all-zero dict; a dict only has
the `hist_fields` keys; every other lookup defaults to `0.0`. -/
def resultsGet (ids : List Int) (fetch : Int → Option (List HistEntry)) (gw : Int)
    (pid : Int) (k : String) : Option ℚ :=
  if pid ∈ ids ∧ k ∈ hist_fields then
    match fetch pid with
    | some hist => aggFor hist gw k
    | none => some 0
  else some 0

/-- The cell written by `discrete["id"].map(lambda x: ... if pd.notna(x) else 0.0)`.
A `NaN` id maps to `0.0`.  (A non-numeric string id would raise an uncaught
`ValueError` in the source — already at the `ids` computation — so string
ids are excluded by the hypotheses of the theorems about this path.) -/
def histCellF (ids : List Int) (fetch : Int → Option (List HistEntry)) (gw : Int)
    (k : String) (idv : Val) : Val :=
  match idv with
  | Val.num q => optToVal (resultsGet ids fetch gw (ratTrunc q) k)
  | _ => Val.num 0

/-- Per-row update for `discrete[k] = discrete["id"].map(...)`. -/
def histAssignRowF (ids : List Int) (fetch : Int → Option (List HistEntry)) (gw : Int) :
    List String → String → (String → Val) → (String → Val) :=
  fun _ k r s => if s = k then histCellF ids fetch gw k (r "id") else r s

/-- Per-row update for `if c not in discrete.columns: discrete[c] = pd.NA`. -/
def addNaIfMissingRowF : List String → String → (String → Val) → (String → Val) :=
  fun cols c r s => if c ∈ cols then r s else (if s = c then Val.na else r s)

/-- Per-row update for `if c not in discrete.columns: discrete[c] = 0.0`. -/
def addZeroIfMissingRowF : List String → String → (String → Val) → (String → Val) :=
  fun cols c r s => if c ∈ cols then r s else (if s = c then Val.num 0 else r s)

/-- The frame `base_players` in the backfill path: identity columns plus the target
gameweek. -/
def backfillBase (elementsDf : DataFrame) (last_gw : Int) : DataFrame :=
  setCol (ensureColumns elementsDf (ID_COLS ++ ["gw"])) "gw" (Val.num (last_gw : ℚ))

/-- Model of `ids = base_players["id"].dropna().astype(int).tolist()`. -/
def backfillIds (base : DataFrame) : List Int :=
  base.rows.filterMap (fun r =>
    match r "id" with
    | Val.num q => some (ratTrunc q)
    | _ => none)

/-- Model of `FPLDataScraper.backfill_last_gw_discrete_from_element_summary`, with the
per-player element-summary retrieval abstracted as `fetch` (`none` models a
raised exception, caught per player). -/
def backfill_last_gw_discrete_from_element_summary (elementsDf : DataFrame)
    (fetch : Int → Option (List HistEntry)) (last_gw : Int) : DataFrame :=
  let base := backfillBase elementsDf last_gw
  let ids := backfillIds base
  let withHist := colFold (addColIf (fun c => c)) (histAssignRowF ids fetch last_gw) base hist_fields
  let withSnap := colFold (addColIf (fun c => c)) addNaIfMissingRowF withHist SNAPSHOT_COLS
  let withCum := colFold (addColIf (fun c => c)) addZeroIfMissingRowF withSnap CUMULATIVE_COLS
  let numeric := colFold (addColIf (fun c => c)) assignNumRowF withCum CUMULATIVE_COLS
  ensureColumns numeric out_cols

/-! ### Orchestration (`run`) -/

/-- The bootstrap payload as consumed by the pipeline: the `events` array and
the `elements` table. -/
structure Bootstrap where
  events : List Event
  elements : DataFrame

/-- Model of `FPLDataScraper._path_cumulative_snapshot`. -/
def path_cumulative_snapshot (gw : Int) : String :=
  "playerstats_cumulative_GW" ++ toString gw ++ ".csv"

/-- Model of `FPLDataScraper._path_discrete_gw_stats`. -/
def path_discrete_gw_stats (gw : Int) : String :=
  "player_gameweek_stats_GW" ++ toString gw ++ ".csv"

/-- Model of `FPLDataScraper.run`, abstracted over the file system and network: `prevSnap` is the previous
cumulative snapshot if its file exists, `backfillFlag` is the constructor
option, `fetch` the element-summary endpoint.  Returns the list of file
paths written, in order (`teams.csv` is touched by `write_text` and then
written by `to_csv`), together with the discrete table (or `none` when the
run aborts on an empty snapshot). -/
def run (b : Bootstrap) (prevSnap : Option DataFrame) (backfillFlag : Bool)
    (fetch : Int → Option (List HistEntry)) : List String × Option DataFrame :=
  let last_gw := get_last_completed_gameweek b.events
  let preWrites := ["teams.csv", "teams.csv", "players.csv"]
  let current_snap := build_cumulative_playerstats_snapshot b.elements last_gw
  if current_snap.rows.isEmpty || current_snap.cols.isEmpty then (preWrites, none)
  else
    let discrete :=
      match prevSnap with
      | some prev => compute_discrete_gameweek_stats current_snap prev
      | none =>
        if backfillFlag then
          backfill_last_gw_discrete_from_element_summary b.elements fetch last_gw
        else current_snap
    (preWrites ++ [path_cumulative_snapshot last_gw, path_discrete_gw_stats last_gw,
      "player_gameweek_stats_last_gw.csv"], some discrete)

/-! ### Generic lemmas about the loop combinator -/

theorem colFold_cols (cf : List String → String → List String)
    (rf : List String → String → (String → Val) → (String → Val))
    (cs : List String) : ∀ df : DataFrame, (colFold cf rf df cs).cols = cs.foldl cf df.cols := by
  induction cs with
  | nil => intro df; rfl
  | cons c t ih =>
    intro df
    show (colFold cf rf { cols := cf df.cols c, rows := df.rows.map (rf df.cols c) } t).cols = _
    rw [ih]
    rfl

theorem colFold_rows (cf : List String → String → List String)
    (rf : List String → String → (String → Val) → (String → Val))
    (cs : List String) : ∀ df : DataFrame,
    (colFold cf rf df cs).rows = df.rows.map (rowFoldF cf rf df.cols cs) := by
  induction cs with
  | nil =>
    intro df
    show df.rows = df.rows.map (rowFoldF cf rf df.cols [])
    rw [show (rowFoldF cf rf df.cols [] : (String → Val) → String → Val) = id from funext (fun r => rfl)]
    rw [List.map_id]
  | cons c t ih =>
    intro df
    show (colFold cf rf { cols := cf df.cols c, rows := df.rows.map (rf df.cols c) } t).rows = _
    rw [ih]
    rw [List.map_map]
    rfl

theorem rowFoldF_append (cf : List String → String → List String)
    (rf : List String → String → (String → Val) → (String → Val))
    (l₁ l₂ : List String) : ∀ (cols : List String) (r : String → Val),
    rowFoldF cf rf cols (l₁ ++ l₂) r
      = rowFoldF cf rf (l₁.foldl cf cols) l₂ (rowFoldF cf rf cols l₁ r) := by
  induction l₁ with
  | nil => intro cols r; rfl
  | cons c t ih =>
    intro cols r
    show rowFoldF cf rf (cf cols c) (t ++ l₂) (rf cols c r) = _
    rw [ih]
    rfl

theorem rowFoldF_untouched_inv (cf : List String → String → List String)
    (rf : List String → String → (String → Val) → (String → Val))
    (s : String) (P : List String → Prop) (cs : List String) :
    ∀ (cols : List String) (r : String → Val),
    P cols →
    (∀ cols' c, c ∈ cs → P cols' → P (cf cols' c)) →
    (∀ cols' c r', c ∈ cs → P cols' → rf cols' c r' s = r' s) →
    rowFoldF cf rf cols cs r s = r s := by
  induction cs with
  | nil => intro cols r _ _ _; rfl
  | cons c t ih =>
    intro cols r hP hPs hrf
    have h1 : rf cols c r s = r s := hrf cols c r (List.mem_cons_self c t) hP
    show rowFoldF cf rf (cf cols c) t (rf cols c r) s = r s
    rw [ih (cf cols c) (rf cols c r) (hPs cols c (List.mem_cons_self c t) hP)
      (fun cols' x hx hp => hPs cols' x (List.mem_cons_of_mem c hx) hp)
      (fun cols' x r' hx hp => hrf cols' x r' (List.mem_cons_of_mem c hx) hp)]
    exact h1

theorem rowFoldF_untouched (cf : List String → String → List String)
    (rf : List String → String → (String → Val) → (String → Val))
    (s : String) (cs cols : List String) (r : String → Val)
    (hrf : ∀ cols' c r', c ∈ cs → rf cols' c r' s = r' s) :
    rowFoldF cf rf cols cs r s = r s :=
  rowFoldF_untouched_inv cf rf s (fun _ => True) cs cols r trivial
    (fun _ _ _ _ => trivial) (fun cols' c r' hc _ => hrf cols' c r' hc)

theorem rowFoldF_target (cf : List String → String → List String)
    (rf : List String → String → (String → Val) → (String → Val))
    (c : String) (l₁ l₂ : List String) (cols : List String) (r : String → Val)
    (h₂ : ∀ cols' x r', x ∈ l₂ → rf cols' x r' c = r' c) :
    rowFoldF cf rf cols (l₁ ++ c :: l₂) r c
      = rf (l₁.foldl cf cols) c (rowFoldF cf rf cols l₁ r) c := by
  rw [rowFoldF_append]
  show rowFoldF cf rf (cf (l₁.foldl cf cols) c) l₂
      (rf (l₁.foldl cf cols) c (rowFoldF cf rf cols l₁ r)) c = _
  exact rowFoldF_untouched cf rf c l₂ _ _ h₂

theorem rowFoldF_congr_inv (cf : List String → String → List String)
    (rf rf' : List String → String → (String → Val) → (String → Val))
    (Q : (String → Val) → Prop) (cs : List String) :
    ∀ (cols : List String) (r : String → Val),
    Q r →
    (∀ cols' c r', c ∈ cs → Q r' → Q (rf cols' c r')) →
    (∀ cols' c r', c ∈ cs → Q r' → rf cols' c r' = rf' cols' c r') →
    rowFoldF cf rf cols cs r = rowFoldF cf rf' cols cs r := by
  induction cs with
  | nil => intro cols r _ _ _; rfl
  | cons c t ih =>
    intro cols r hQ hQs hrf
    show rowFoldF cf rf (cf cols c) t (rf cols c r) = rowFoldF cf rf' (cf cols c) t (rf' cols c r)
    rw [← hrf cols c r (List.mem_cons_self c t) hQ]
    exact ih (cf cols c) (rf cols c r) (hQs cols c r (List.mem_cons_self c t) hQ)
      (fun cols' x r' hx hq => hQs cols' x r' (List.mem_cons_of_mem c hx) hq)
      (fun cols' x r' hx hq => hrf cols' x r' (List.mem_cons_of_mem c hx) hq)

theorem mem_foldl_addColIf (g : String → String) (cs : List String) :
    ∀ (cols : List String) (x : String),
    (x ∈ cs.foldl (addColIf g) cols ↔ x ∈ cols ∨ ∃ c ∈ cs, x = g c) := by
  induction cs with
  | nil => intro cols x; simp
  | cons c t ih =>
    intro cols x
    rw [List.foldl_cons, ih]
    have hstep : x ∈ addColIf g cols c ↔ x ∈ cols ∨ x = g c := by
      unfold addColIf
      by_cases h : g c ∈ cols
      · rw [if_pos h]
        constructor
        · exact fun hx => Or.inl hx
        · rintro (hx | hx)
          · exact hx
          · exact hx ▸ h
      · rw [if_neg h]
        simp [List.mem_append]
    rw [hstep]
    simp only [List.mem_cons]
    constructor
    · rintro ((hx | hx) | ⟨a, ha, hax⟩)
      · exact Or.inl hx
      · exact Or.inr ⟨c, Or.inl rfl, hx⟩
      · exact Or.inr ⟨a, Or.inr ha, hax⟩
    · rintro (hx | ⟨a, (ha | ha), hax⟩)
      · exact Or.inl (Or.inl hx)
      · exact Or.inl (Or.inr (ha ▸ hax))
      · exact Or.inr ⟨a, ha, hax⟩

theorem foldl_addColIf_stable (g : String → String) (cs : List String) :
    ∀ cols : List String, (∀ c ∈ cs, g c ∈ cols) → cs.foldl (addColIf g) cols = cols := by
  induction cs with
  | nil => intro cols _; rfl
  | cons c t ih =>
    intro cols h
    rw [List.foldl_cons, addColIf, if_pos (h c (List.mem_cons_self c t))]
    exact ih cols (fun x hx => h x (List.mem_cons_of_mem c hx))

theorem foldl_fixed {α β : Type} (f : β → α → β) (l : List α)
    (h : ∀ x ∈ l, ∀ acc, f acc x = acc) : ∀ acc, l.foldl f acc = acc := by
  induction l with
  | nil => intro acc; rfl
  | cons x t ih =>
    intro acc
    rw [List.foldl_cons, h x (List.mem_cons_self x t) acc]
    exact ih (fun y hy => h y (List.mem_cons_of_mem x hy)) acc

theorem getD_map_lt {α β : Type} (l : List α) (f : α → β) (i : Nat) (h : i < l.length)
    (d : β) (d' : α) : (l.map f).getD i d = f (l.getD i d') := by
  simp [List.getD, List.getElem?_map, List.getElem?_eq_getElem h]

theorem cellAt_of_rows_map {df : DataFrame} {l : List (String → Val)}
    {F : (String → Val) → (String → Val)} (h : df.rows = l.map F) (i : Nat)
    (hi : i < l.length) (s : String) :
    cellAt df i s = F (l.getD i (fun _ => Val.na)) s := by
  unfold cellAt rowAt
  rw [h, getD_map_lt l F i hi (fun _ => Val.na) (fun _ => Val.na)]

theorem cellAt_of_rows_map_df {out cur : DataFrame} {F : (String → Val) → (String → Val)}
    (h : out.rows = cur.rows.map F) (i : Nat) (hi : i < cur.rows.length) (s : String) :
    cellAt out i s = F (rowAt cur i) s :=
  cellAt_of_rows_map h i hi s

theorem find?_unique {α : Type} (p : α → Bool) (l : List α) (a : α) (ha : a ∈ l)
    (hpa : p a = true) (hu : ∀ b ∈ l, p b = true → b = a) : l.find? p = some a := by
  induction l with
  | nil => cases ha
  | cons x t ih =>
    by_cases hx : p x = true
    · have hxa : x = a := hu x (List.mem_cons_self x t) hx
      rw [List.find?_cons_of_pos _ hx, hxa]
    · rcases List.mem_cons.mp ha with h | h
      · exact absurd (h ▸ hpa) hx
      · rw [List.find?_cons_of_neg _ hx]
        exact ih h (fun b hb hpb => hu b (List.mem_cons_of_mem x hb) hpb)

theorem filter_nodup_key {α β : Type} [DecidableEq β] (f : α → β) (l : List α)
    (hn : (l.map f).Nodup) (v : β) :
    l.filter (fun x => f x == v) = (l.find? (fun x => f x == v)).toList := by
  induction l with
  | nil => rfl
  | cons a t ih =>
    rw [List.map_cons, List.nodup_cons] at hn
    by_cases h : f a = v
    · rw [List.filter_cons_of_pos (by simp [h]), List.find?_cons_of_pos _ (by simp [h])]
      have ht : t.filter (fun x => f x == v) = [] := by
        rw [List.filter_eq_nil_iff]
        intro x hx
        simp only [beq_iff_eq]
        intro he
        have hmem : f x ∈ t.map f := List.mem_map_of_mem f hx
        rw [he, ← h] at hmem
        exact hn.1 hmem
      rw [ht]
      rfl
    · rw [List.filter_cons_of_neg (by simp [h]), List.find?_cons_of_neg _ (by simp [h])]
      exact ih hn.2

theorem flatMap_eq_map {α β : Type} (l : List α) (g : α → List β) (f : α → β)
    (h : ∀ x, g x = [f x]) : l.flatMap g = l.map f := by
  induction l with
  | nil => rfl
  | cons a t ih => simp [List.flatMap_cons, h, ih]

/-! ### Decidable facts about the column vocabularies -/

theorem cum_nodup : CUMULATIVE_COLS.Nodup := by decide

theorem snap_nodup : SNAPSHOT_COLS.Nodup := by decide

theorem hist_nodup : hist_fields.Nodup := by decide

theorem numeric_like_nodup : numeric_like_snapshot.Nodup := by decide

theorem cum_prev_notin : ∀ c ∈ CUMULATIVE_COLS, c ++ "_prev" ∉ CUMULATIVE_COLS := by decide

theorem cum_prev_inj :
    ∀ c ∈ CUMULATIVE_COLS, ∀ b ∈ CUMULATIVE_COLS, c ++ "_prev" = b ++ "_prev" → c = b := by decide

theorem snap_cum_disjoint : ∀ s ∈ SNAPSHOT_COLS, s ∉ CUMULATIVE_COLS := by decide

theorem snap_not_prev : ∀ s ∈ SNAPSHOT_COLS, ∀ c ∈ CUMULATIVE_COLS, s ≠ c ++ "_prev" := by decide

theorem id_notin_cum : "id" ∉ CUMULATIVE_COLS := by decide

theorem cum_sub_out : ∀ c ∈ CUMULATIVE_COLS, c ∈ out_cols := by decide

theorem snap_sub_out : ∀ s ∈ SNAPSHOT_COLS, s ∈ out_cols := by decide

theorem hist_sub_cum : ∀ k ∈ hist_fields, k ∈ CUMULATIVE_COLS := by decide

theorem hist_snap_disjoint : ∀ k ∈ hist_fields, k ∉ SNAPSHOT_COLS := by decide

theorem id_notin_hist : "id" ∉ hist_fields := by decide

theorem cum_notin_idgw : ∀ c ∈ CUMULATIVE_COLS, c ∉ ID_COLS ++ ["gw"] := by decide

theorem snap_notin_idgw : ∀ s ∈ SNAPSHOT_COLS, s ∉ ID_COLS ++ ["gw"] := by decide

theorem gw_notin_cum : "gw" ∉ CUMULATIVE_COLS := by decide

theorem numeric_like_sub_snap : ∀ c ∈ numeric_like_snapshot, c ∈ SNAPSHOT_COLS := by decide

theorem cum_notin_numeric_like : ∀ c ∈ CUMULATIVE_COLS, c ∉ numeric_like_snapshot := by decide

theorem cum_sub_wanted : ∀ c ∈ CUMULATIVE_COLS, c ∈ out_cols := cum_sub_out

/-! ### Characterisation of the delta engine -/

/-- The cumulative columns the previous snapshot actually has (the tail of
`prev_cols` in `compute_discrete_gameweek_stats`). -/
def deltaPrevNonKey (prev : DataFrame) : List String :=
  CUMULATIVE_COLS.filter (fun c => c ∈ prev.cols)

/-- The row projection performed by `prev_snapshot[prev_cols]`. -/
def prevSmallMask (prev : DataFrame) : (String → Val) → (String → Val) :=
  fun r s => if s ∈ ("id" :: deltaPrevNonKey prev) ∧ s ∈ prev.cols then r s else Val.na

/-- The column list of the merged frame. -/
def deltaMergedCols (cur prev : DataFrame) : List String :=
  cur.cols ++ (deltaPrevNonKey prev).map (prevOutName cur.cols)

/-- The previous row matched to an id value by the left merge. -/
def deltaMatch (prev : DataFrame) (idv : Val) : Option (String → Val) :=
  prev.rows.find? (fun pr => pr "id" == idv)

/-- The per-row function the whole delta engine applies to a current-snapshot
row (valid once the previous snapshot has unique ids; see
`compute_discrete_rows_eq`). -/
def deltaRowF (cur prev : DataFrame) (r : String → Val) : String → Val :=
  fun s =>
    if s ∈ out_cols ∧ s ∈ CUMULATIVE_COLS.foldl diffColsF (deltaMergedCols cur prev) then
      rowFoldF diffColsF diffRowF (deltaMergedCols cur prev) CUMULATIVE_COLS
        (combineRow cur.cols (deltaPrevNonKey prev) r
          ((deltaMatch prev (r "id")).map (prevSmallMask prev))) s
    else Val.na

/-- The previous-snapshot value the delta engine ends up subtracting: `0`
when the player or the column is absent from the previous snapshot. -/
def prevCumValue (prev : DataFrame) (idv : Val) (c : String) : ℚ :=
  if c ∈ prev.cols then
    match deltaMatch prev idv with
    | some pr => toNumFill 0 (pr c)
    | none => 0
  else 0

/-- The negative-delta correction policy applied to one cell. -/
def discreteVal (cv pv : ℚ) : ℚ := if 0 ≤ cv - pv then cv - pv else cv

theorem prevNonKey_filter (prev : DataFrame) :
    ("id" :: deltaPrevNonKey prev).filter (fun c => c ≠ "id") = deltaPrevNonKey prev := by
  rw [List.filter_cons, if_neg (by simp)]
  apply List.filter_eq_self.mpr
  intro x hx
  have hxc : x ∈ CUMULATIVE_COLS := (List.mem_filter.mp hx).1
  have hne : x ≠ "id" := fun e => id_notin_cum (e ▸ hxc)
  simpa using hne

theorem filter_rows_nodup (l : List (String → Val))
    (hn : (l.map (fun r => r "id")).Nodup) (v : Val) :
    l.filter (fun pr => pr "id" == v) = (l.find? (fun pr => pr "id" == v)).toList := by
  induction l with
  | nil => rfl
  | cons a t ih =>
    rw [List.map_cons, List.nodup_cons] at hn
    by_cases h : a "id" = v
    · rw [List.filter_cons_of_pos (by simp [h]), List.find?_cons_of_pos _ (by simp [h])]
      have ht : t.filter (fun pr => pr "id" == v) = [] := by
        rw [List.filter_eq_nil_iff]
        intro x hx
        simp only [beq_iff_eq]
        intro he
        have hmem : x "id" ∈ t.map (fun r => r "id") :=
          List.mem_map_of_mem (fun r => r "id") hx
        rw [he, ← h] at hmem
        exact hn.1 hmem
      rw [ht]
      rfl
    · rw [List.filter_cons_of_neg (by simp [h]), List.find?_cons_of_neg _ (by simp [h])]
      exact ih hn.2

theorem mergeLeftOnId_rows_of_nodup (cur prev : DataFrame)
    (hn : (prev.rows.map (fun r => r "id")).Nodup) :
    (mergeLeftOnId cur prev).rows = cur.rows.map (fun r =>
      combineRow cur.cols (prev.cols.filter (fun c => c ≠ "id")) r
        (prev.rows.find? (fun pr => pr "id" == r "id"))) := by
  show cur.rows.flatMap _ = _
  apply flatMap_eq_map
  intro r
  rw [filter_rows_nodup prev.rows hn (r "id")]
  cases hfind : prev.rows.find? (fun pr => pr "id" == r "id") with
  | none => simp
  | some pr => simp

theorem compute_discrete_cols (cur prev : DataFrame) :
    (compute_discrete_gameweek_stats cur prev).cols = out_cols := rfl

theorem ensureColumns_rows (df : DataFrame) (cs : List String) :
    (ensureColumns df cs).rows
      = df.rows.map (fun r s => if s ∈ cs ∧ s ∈ df.cols then r s else Val.na) := rfl

theorem ensureColumns_cols (df : DataFrame) (cs : List String) :
    (ensureColumns df cs).cols = cs := rfl

theorem setCol_rows (df : DataFrame) (c : String) (v : Val) :
    (setCol df c v).rows = df.rows.map (fun r s => if s = c then v else r s) := rfl

theorem setCol_cols (df : DataFrame) (c : String) (v : Val) :
    (setCol df c v).cols = (if c ∈ df.cols then df.cols else df.cols ++ [c]) := rfl

theorem mergeLeftOnId_cols (cur prev : DataFrame) :
    (mergeLeftOnId cur prev).cols
      = cur.cols ++ (prev.cols.filter (fun c => c ≠ "id")).map (prevOutName cur.cols) := rfl

theorem compute_discrete_rows_eq (cur prev : DataFrame)
    (h3 : "id" ∈ prev.cols)
    (h4 : (prev.rows.map (fun r => r "id")).Nodup) :
    (compute_discrete_gameweek_stats cur prev).rows = cur.rows.map (deltaRowF cur prev) := by
  have hmaskid : ∀ pr : String → Val, prevSmallMask prev pr "id" = pr "id" := by
    intro pr
    unfold prevSmallMask
    rw [if_pos ⟨List.mem_cons_self _ _, h3⟩]
  have h4' : (((ensureColumns prev ("id" :: CUMULATIVE_COLS.filter (fun c => c ∈ prev.cols))).rows).map
      (fun r => r "id")).Nodup := by
    show (((prev.rows.map (prevSmallMask prev))).map (fun r => r "id")).Nodup
    rw [List.map_map]
    have hcomp : ((fun r : String → Val => r "id") ∘ prevSmallMask prev)
        = (fun r : String → Val => r "id") := funext (fun pr => hmaskid pr)
    rw [hcomp]
    exact h4
  have hmc : (mergeLeftOnId cur
      (ensureColumns prev ("id" :: CUMULATIVE_COLS.filter (fun c => c ∈ prev.cols)))).cols
      = deltaMergedCols cur prev := by
    rw [mergeLeftOnId_cols]
    show cur.cols ++ (("id" :: deltaPrevNonKey prev).filter (fun c => c ≠ "id")).map
        (prevOutName cur.cols) = _
    rw [prevNonKey_filter]
    rfl
  have hfind : ∀ v : Val,
      (ensureColumns prev ("id" :: CUMULATIVE_COLS.filter (fun c => c ∈ prev.cols))).rows.find?
        (fun pr => pr "id" == v) = (deltaMatch prev v).map (prevSmallMask prev) := by
    intro v
    show ((prev.rows.map (prevSmallMask prev))).find? (fun pr => pr "id" == v) = _
    rw [List.find?_map]
    unfold deltaMatch
    have hcomp : ((fun pr : String → Val => pr "id" == v) ∘ prevSmallMask prev)
        = (fun pr : String → Val => pr "id" == v) := by
      funext pr
      show (prevSmallMask prev pr "id" == v) = (pr "id" == v)
      rw [hmaskid pr]
    rw [hcomp]
  show (ensureColumns (colFold diffColsF diffRowF
      (mergeLeftOnId cur (ensureColumns prev ("id" :: CUMULATIVE_COLS.filter (fun c => c ∈ prev.cols))))
      CUMULATIVE_COLS) out_cols).rows = _
  rw [ensureColumns_rows, colFold_rows, colFold_cols,
    mergeLeftOnId_rows_of_nodup cur _ h4', List.map_map, List.map_map]
  apply List.map_congr_left
  intro r _
  funext s
  rw [Function.comp_apply, Function.comp_apply, hmc, hfind (r "id")]
  show (if s ∈ out_cols ∧ s ∈ CUMULATIVE_COLS.foldl diffColsF (deltaMergedCols cur prev) then
      rowFoldF diffColsF diffRowF (deltaMergedCols cur prev) CUMULATIVE_COLS
        (combineRow cur.cols
          (("id" :: deltaPrevNonKey prev).filter (fun c => c ≠ "id")) r
          ((deltaMatch prev (r "id")).map (prevSmallMask prev))) s
    else Val.na) = deltaRowF cur prev r s
  rw [prevNonKey_filter]
  rfl

/-- Lemma: `diffRowF` leaves every column other than the target and its `_prev`
shadow untouched. -/
theorem diffRowF_untouched (cols : List String) (x : String) (r : String → Val) (s : String)
    (h1 : s ≠ x) (h2 : s ≠ x ++ "_prev") : diffRowF cols x r s = r s := by
  unfold diffRowF diffR1
  rw [if_neg h1, if_neg h2]
  by_cases h : x ++ "_prev" ∈ cols
  · rw [if_pos h]
  · rw [if_neg h, if_neg h2]

/-- What the delta engine writes into a cumulative cell. -/
theorem deltaRowF_cum (cur prev : DataFrame)
    (h1 : ∀ c ∈ CUMULATIVE_COLS, c ∈ cur.cols)
    (h5 : ∀ c ∈ CUMULATIVE_COLS, c ++ "_prev" ∉ cur.cols)
    (r : String → Val) (c : String) (hc : c ∈ CUMULATIVE_COLS) :
    deltaRowF cur prev r c
      = Val.num (discreteVal (toNumFill 0 (r c)) (prevCumValue prev (r "id") c)) := by
  obtain ⟨l₁, l₂, hsplit⟩ := List.append_of_mem hc
  have hnd : (l₁ ++ c :: l₂).Nodup := hsplit ▸ cum_nodup
  have hcl₁ : c ∉ l₁ := fun h =>
    (List.disjoint_of_nodup_append hnd) h (List.mem_cons_self c l₂)
  have hcl₂ : c ∉ l₂ := by
    have := (List.nodup_append.mp hnd).2.1
    exact (List.nodup_cons.mp this).1
  have hmemcs : ∀ x, x ∈ l₁ ∨ x ∈ l₂ → x ∈ CUMULATIVE_COLS := by
    intro x hx
    rw [hsplit, List.mem_append, List.mem_cons]
    rcases hx with hx | hx
    · exact Or.inl hx
    · exact Or.inr (Or.inr hx)
  -- the target column survives to the end of the fold
  have houter : c ∈ out_cols ∧ c ∈ CUMULATIVE_COLS.foldl diffColsF (deltaMergedCols cur prev) := by
    refine ⟨cum_sub_out c hc, ?_⟩
    rw [show diffColsF = addColIf (fun c => c ++ "_prev") from rfl, mem_foldl_addColIf]
    exact Or.inl (List.mem_append.mpr (Or.inl (h1 c hc)))
  unfold deltaRowF
  rw [if_pos houter, hsplit]
  set cr := combineRow cur.cols (deltaPrevNonKey prev) r
    ((deltaMatch prev (r "id")).map (prevSmallMask prev)) with hcr
  -- later iterations do not touch column c
  have hl₂ : ∀ cols' x r', x ∈ l₂ → diffRowF cols' x r' c = r' c := by
    intro cols' x r' hx
    have hxcum : x ∈ CUMULATIVE_COLS := hmemcs x (Or.inr hx)
    refine diffRowF_untouched cols' x r' c (fun he => hcl₂ (he ▸ hx)) ?_
    intro he
    exact cum_prev_notin x hxcum (he ▸ hc)
  rw [rowFoldF_target diffColsF diffRowF c l₁ l₂ (deltaMergedCols cur prev) cr hl₂]
  -- earlier iterations do not touch c nor c_prev
  have hl₁c : rowFoldF diffColsF diffRowF (deltaMergedCols cur prev) l₁ cr c = cr c := by
    apply rowFoldF_untouched
    intro cols' x r' hx
    have hxcum : x ∈ CUMULATIVE_COLS := hmemcs x (Or.inl hx)
    refine diffRowF_untouched cols' x r' c (fun he => hcl₁ (he ▸ hx)) ?_
    intro he
    exact cum_prev_notin x hxcum (he ▸ hc)
  have hl₁pc : rowFoldF diffColsF diffRowF (deltaMergedCols cur prev) l₁ cr (c ++ "_prev")
      = cr (c ++ "_prev") := by
    apply rowFoldF_untouched
    intro cols' x r' hx
    have hxcum : x ∈ CUMULATIVE_COLS := hmemcs x (Or.inl hx)
    refine diffRowF_untouched cols' x r' (c ++ "_prev") ?_ ?_
    · intro he
      exact cum_prev_notin c hc (he ▸ hxcum)
    · intro he
      exact hcl₁ (cum_prev_inj c hc x hxcum he ▸ hx)
  -- membership of c_prev after the earlier iterations
  have hpcfold : (c ++ "_prev" ∈ l₁.foldl diffColsF (deltaMergedCols cur prev))
      ↔ c ++ "_prev" ∈ deltaMergedCols cur prev := by
    rw [show diffColsF = addColIf (fun c => c ++ "_prev") from rfl, mem_foldl_addColIf]
    constructor
    · rintro (h | ⟨x, hx, hxe⟩)
      · exact h
      · exact absurd (cum_prev_inj c hc x (hmemcs x (Or.inl hx)) hxe) (fun he => hcl₁ (he ▸ hx))
    · exact Or.inl
  have hpcmerged : (c ++ "_prev" ∈ deltaMergedCols cur prev) ↔ c ∈ prev.cols := by
    unfold deltaMergedCols
    rw [List.mem_append]
    constructor
    · rintro (h | h)
      · exact absurd h (h5 c hc)
      · rcases List.mem_map.mp h with ⟨x, hx, hxe⟩
        have hxcum : x ∈ CUMULATIVE_COLS := (List.mem_filter.mp hx).1
        rw [prevOutName, if_pos (h1 x hxcum)] at hxe
        have hxceq : x = c := cum_prev_inj x hxcum c hc hxe
        have hxp := (List.mem_filter.mp hx).2
        simp only [decide_eq_true_eq] at hxp
        exact hxceq ▸ hxp
    · intro h
      refine Or.inr (List.mem_map.mpr ⟨c, List.mem_filter.mpr ⟨hc, by simpa using h⟩, ?_⟩)
      rw [prevOutName, if_pos (h1 c hc)]
  -- values of the combined row at c and c_prev
  have hcrc : cr c = r c := by
    rw [hcr]
    unfold combineRow
    rw [if_pos (h1 c hc)]
  have hcne : c ≠ c ++ "_prev" := fun he => cum_prev_notin c hc (he ▸ hc)
  have hcrpc : c ∈ prev.cols →
      cr (c ++ "_prev") = (match deltaMatch prev (r "id") with
        | some pr => prevSmallMask prev pr c
        | none => Val.na) := by
    intro hcp
    rw [hcr]
    unfold combineRow
    rw [if_neg (h5 c hc)]
    have hfind : (deltaPrevNonKey prev).find?
        (fun x => prevOutName cur.cols x == c ++ "_prev") = some c := by
      apply find?_unique
      · exact List.mem_filter.mpr ⟨hc, by simpa using hcp⟩
      · rw [prevOutName, if_pos (h1 c hc)]
        exact beq_self_eq_true _
      · intro b hb hpb
        have hbcum : b ∈ CUMULATIVE_COLS := (List.mem_filter.mp hb).1
        rw [prevOutName, if_pos (h1 b hbcum)] at hpb
        exact cum_prev_inj b hbcum c hc (by simpa using hpb)
    rw [hfind]
    cases deltaMatch prev (r "id") with
    | none => rfl
    | some pr => rfl
  -- now evaluate the step for c itself
  rw [show diffRowF (l₁.foldl diffColsF (deltaMergedCols cur prev)) c
        (rowFoldF diffColsF diffRowF (deltaMergedCols cur prev) l₁ cr) c
      = Val.num (if 0 ≤ toNumFill 0 (diffR1 (l₁.foldl diffColsF (deltaMergedCols cur prev)) c
            (rowFoldF diffColsF diffRowF (deltaMergedCols cur prev) l₁ cr) c)
          - toNumFill 0 (diffR1 (l₁.foldl diffColsF (deltaMergedCols cur prev)) c
            (rowFoldF diffColsF diffRowF (deltaMergedCols cur prev) l₁ cr) (c ++ "_prev"))
        then toNumFill 0 (diffR1 (l₁.foldl diffColsF (deltaMergedCols cur prev)) c
            (rowFoldF diffColsF diffRowF (deltaMergedCols cur prev) l₁ cr) c)
          - toNumFill 0 (diffR1 (l₁.foldl diffColsF (deltaMergedCols cur prev)) c
            (rowFoldF diffColsF diffRowF (deltaMergedCols cur prev) l₁ cr) (c ++ "_prev"))
        else toNumFill 0 (diffR1 (l₁.foldl diffColsF (deltaMergedCols cur prev)) c
            (rowFoldF diffColsF diffRowF (deltaMergedCols cur prev) l₁ cr) c))
      from by rw [diffRowF, if_pos rfl]]
  have hr1c : diffR1 (l₁.foldl diffColsF (deltaMergedCols cur prev)) c
      (rowFoldF diffColsF diffRowF (deltaMergedCols cur prev) l₁ cr) c = r c := by
    unfold diffR1
    by_cases h : c ++ "_prev" ∈ l₁.foldl diffColsF (deltaMergedCols cur prev)
    · rw [if_pos h, hl₁c, hcrc]
    · rw [if_neg h, if_neg hcne, hl₁c, hcrc]
  have hr1pc : toNumFill 0 (diffR1 (l₁.foldl diffColsF (deltaMergedCols cur prev)) c
      (rowFoldF diffColsF diffRowF (deltaMergedCols cur prev) l₁ cr) (c ++ "_prev"))
      = prevCumValue prev (r "id") c := by
    unfold diffR1
    by_cases h : c ++ "_prev" ∈ l₁.foldl diffColsF (deltaMergedCols cur prev)
    · have hcp : c ∈ prev.cols := hpcmerged.mp (hpcfold.mp h)
      rw [if_pos h, hl₁pc, hcrpc hcp]
      unfold prevCumValue
      rw [if_pos hcp]
      cases hm : deltaMatch prev (r "id") with
      | none => rfl
      | some pr =>
        show toNumFill 0 (prevSmallMask prev pr c) = toNumFill 0 (pr c)
        unfold prevSmallMask
        rw [if_pos ⟨List.mem_cons_of_mem _ (List.mem_filter.mpr ⟨hc, by simpa using hcp⟩), hcp⟩]
    · have hcp : c ∉ prev.cols := fun hcp =>
        h (hpcfold.mpr (hpcmerged.mpr hcp))
      rw [if_neg h, if_pos rfl]
      unfold prevCumValue
      rw [if_neg hcp]
      rfl
  rw [hr1c, hr1pc]
  rfl

/-- Point-in-time (snapshot) columns pass through the delta engine
unchanged from the current snapshot. -/
theorem deltaRowF_snap (cur prev : DataFrame) (r : String → Val) (s : String)
    (hs : s ∈ SNAPSHOT_COLS) (hsc : s ∈ cur.cols) :
    deltaRowF cur prev r s = r s := by
  have houter : s ∈ out_cols ∧ s ∈ CUMULATIVE_COLS.foldl diffColsF (deltaMergedCols cur prev) := by
    refine ⟨snap_sub_out s hs, ?_⟩
    rw [show diffColsF = addColIf (fun c => c ++ "_prev") from rfl, mem_foldl_addColIf]
    exact Or.inl (List.mem_append.mpr (Or.inl hsc))
  unfold deltaRowF
  rw [if_pos houter]
  rw [rowFoldF_untouched _ _ s CUMULATIVE_COLS _ _ (fun cols' x r' hx =>
    diffRowF_untouched cols' x r' s (fun he => snap_cum_disjoint s hs (he ▸ hx))
      (snap_not_prev s hs x hx))]
  unfold combineRow
  rw [if_pos hsc]

/-! ### Claims about the delta engine -/

/-- C1: for every current and previous snapshot (the previous one keyed by
unique ids, the current one carrying the full cumulative schema),
`compute_discrete_gameweek_stats` produces one output row per current-snapshot
row; whenever the growth `current - previous` is non-negative the output
cumulative cell is exactly that difference (with an absent player or absent
column contributing a previous value of zero, via `prevCumValue`); and a
player absent from the previous snapshot gets its current value unchanged. -/
theorem delta_engine_left_join_diff (cur prev : DataFrame)
    (h1 : ∀ c ∈ CUMULATIVE_COLS, c ∈ cur.cols)
    (h2 : "id" ∈ cur.cols)
    (h3 : "id" ∈ prev.cols)
    (h4 : (prev.rows.map (fun r => r "id")).Nodup)
    (h5 : ∀ c ∈ CUMULATIVE_COLS, c ++ "_prev" ∉ cur.cols) :
    (compute_discrete_gameweek_stats cur prev).rows.length = cur.rows.length ∧
    ∀ i, i < cur.rows.length → ∀ c ∈ CUMULATIVE_COLS,
      (0 ≤ toNumFill 0 (rowAt cur i c) - prevCumValue prev (rowAt cur i "id") c →
        cellAt (compute_discrete_gameweek_stats cur prev) i c
          = Val.num (toNumFill 0 (rowAt cur i c) - prevCumValue prev (rowAt cur i "id") c)) ∧
      ((∀ pr ∈ prev.rows, ¬ pr "id" = rowAt cur i "id") →
        cellAt (compute_discrete_gameweek_stats cur prev) i c
          = Val.num (toNumFill 0 (rowAt cur i c))) := by
  have hrows := compute_discrete_rows_eq cur prev h3 h4
  refine ⟨by rw [hrows, List.length_map], ?_⟩
  intro i hi c hc
  have hcell : cellAt (compute_discrete_gameweek_stats cur prev) i c
      = deltaRowF cur prev (rowAt cur i) c :=
    cellAt_of_rows_map_df hrows i hi c
  rw [hcell, deltaRowF_cum cur prev h1 h5 _ c hc]
  constructor
  · intro hge
    show Val.num (discreteVal _ _) = _
    unfold discreteVal
    rw [if_pos hge]
  · intro habs
    have hm : deltaMatch prev (rowAt cur i "id") = none := by
      unfold deltaMatch
      apply List.find?_eq_none.mpr
      intro pr hpr
      simpa using habs pr hpr
    have hpv : prevCumValue prev (rowAt cur i "id") c = 0 := by
      unfold prevCumValue
      rw [hm]
      by_cases h : c ∈ prev.cols
      · rw [if_pos h]
      · rw [if_neg h]
    show Val.num (discreteVal (toNumFill 0 (rowAt cur i c))
        (prevCumValue prev (rowAt cur i "id") c)) = _
    rw [hpv]
    unfold discreteVal
    rw [sub_zero]
    by_cases h : 0 ≤ toNumFill 0 (rowAt cur i c)
    · rw [if_pos h]
    · rw [if_neg h]

/-- C2: a cumulative cell whose current value is strictly smaller than the
matched previous value is corrected to the current value (the negative delta
is discarded). -/
theorem delta_engine_negative_delta (cur prev : DataFrame)
    (h1 : ∀ c ∈ CUMULATIVE_COLS, c ∈ cur.cols)
    (h2 : "id" ∈ cur.cols)
    (h3 : "id" ∈ prev.cols)
    (h4 : (prev.rows.map (fun r => r "id")).Nodup)
    (h5 : ∀ c ∈ CUMULATIVE_COLS, c ++ "_prev" ∉ cur.cols)
    (i : Nat) (hi : i < cur.rows.length)
    (c : String) (hc : c ∈ CUMULATIVE_COLS) (hcp : c ∈ prev.cols)
    (pr : String → Val) (hpr : pr ∈ prev.rows)
    (hid : pr "id" = rowAt cur i "id")
    (hlt : toNumFill 0 (rowAt cur i c) < toNumFill 0 (pr c)) :
    cellAt (compute_discrete_gameweek_stats cur prev) i c
      = Val.num (toNumFill 0 (rowAt cur i c)) := by
  have hrows := compute_discrete_rows_eq cur prev h3 h4
  have hcell : cellAt (compute_discrete_gameweek_stats cur prev) i c
      = deltaRowF cur prev (rowAt cur i) c :=
    cellAt_of_rows_map_df hrows i hi c
  rw [hcell, deltaRowF_cum cur prev h1 h5 _ c hc]
  have hm : deltaMatch prev (rowAt cur i "id") = some pr := by
    unfold deltaMatch
    apply find?_unique _ _ pr hpr (by simpa using hid)
    intro b hb hpb
    simp only [beq_iff_eq] at hpb
    exact List.inj_on_of_nodup_map h4 hb hpr (hpb.trans hid.symm)
  have hpv : prevCumValue prev (rowAt cur i "id") c = toNumFill 0 (pr c) := by
    unfold prevCumValue
    rw [hm, if_pos hcp]
  show Val.num (discreteVal (toNumFill 0 (rowAt cur i c))
      (prevCumValue prev (rowAt cur i "id") c)) = _
  rw [hpv]
  unfold discreteVal
  rw [if_neg (by simpa [not_le] using sub_neg.mpr hlt)]

/-- C8: every point-in-time (snapshot) column of the delta-engine output
equals the current snapshot's cell for that row, whatever the previous
snapshot contains. -/
theorem delta_engine_snapshot_passthrough (cur prev : DataFrame)
    (h3 : "id" ∈ prev.cols)
    (h4 : (prev.rows.map (fun r => r "id")).Nodup)
    (hs : ∀ s ∈ SNAPSHOT_COLS, s ∈ cur.cols) :
    (compute_discrete_gameweek_stats cur prev).rows.length = cur.rows.length ∧
    ∀ i, i < cur.rows.length → ∀ s ∈ SNAPSHOT_COLS,
      cellAt (compute_discrete_gameweek_stats cur prev) i s = rowAt cur i s := by
  have hrows := compute_discrete_rows_eq cur prev h3 h4
  refine ⟨by rw [hrows, List.length_map], ?_⟩
  intro i hi s hsS
  have hcell : cellAt (compute_discrete_gameweek_stats cur prev) i s
      = deltaRowF cur prev (rowAt cur i) s :=
    cellAt_of_rows_map_df hrows i hi s
  rw [hcell, deltaRowF_snap cur prev _ s hsS (hs s hsS)]

/-! ### Concrete snapshots used by the witnesses -/

/-- A one-player current-snapshot row: id 1, every other consulted cell 1. -/
def curRowEx : String → Val := fun s => if s = "id" then Val.num 1 else Val.num 1

/-- A current snapshot with the full cumulative schema and one player. -/
def curEx : DataFrame := { cols := "id" :: CUMULATIVE_COLS, rows := [curRowEx] }

/-- A current snapshot with the complete output schema and one player. -/
def curFullEx : DataFrame := { cols := out_cols, rows := [curRowEx] }

/-- A one-player previous-snapshot row: id 1, every other consulted cell 2. -/
def prevRowEx : String → Val := fun s => if s = "id" then Val.num 1 else Val.num 2

/-- A previous snapshot holding only `id` and `minutes`. -/
def prevEx : DataFrame := { cols := ["id", "minutes"], rows := [prevRowEx] }

theorem delta_engine_left_join_diff_witness :
    (∀ c ∈ CUMULATIVE_COLS, c ∈ curEx.cols) ∧ ("id" ∈ curEx.cols) ∧ ("id" ∈ prevEx.cols) ∧
    ((prevEx.rows.map (fun r => r "id")).Nodup) ∧
    (∀ c ∈ CUMULATIVE_COLS, c ++ "_prev" ∉ curEx.cols) ∧
    ((compute_discrete_gameweek_stats curEx prevEx).rows.length = curEx.rows.length ∧
      ∀ i, i < curEx.rows.length → ∀ c ∈ CUMULATIVE_COLS,
        (0 ≤ toNumFill 0 (rowAt curEx i c) - prevCumValue prevEx (rowAt curEx i "id") c →
          cellAt (compute_discrete_gameweek_stats curEx prevEx) i c
            = Val.num (toNumFill 0 (rowAt curEx i c)
                - prevCumValue prevEx (rowAt curEx i "id") c)) ∧
        ((∀ pr ∈ prevEx.rows, ¬ pr "id" = rowAt curEx i "id") →
          cellAt (compute_discrete_gameweek_stats curEx prevEx) i c
            = Val.num (toNumFill 0 (rowAt curEx i c)))) :=
  ⟨by decide, by decide, by decide, by decide, by decide,
    delta_engine_left_join_diff curEx prevEx (by decide) (by decide) (by decide)
      (by decide) (by decide)⟩

theorem delta_engine_negative_delta_witness :
    (0 : Nat) < curEx.rows.length ∧ "minutes" ∈ CUMULATIVE_COLS ∧ "minutes" ∈ prevEx.cols ∧
    prevRowEx ∈ prevEx.rows ∧ prevRowEx "id" = rowAt curEx 0 "id" ∧
    toNumFill 0 (rowAt curEx 0 "minutes") < toNumFill 0 (prevRowEx "minutes") ∧
    cellAt (compute_discrete_gameweek_stats curEx prevEx) 0 "minutes"
      = Val.num (toNumFill 0 (rowAt curEx 0 "minutes")) :=
  ⟨by decide, by decide, by decide, List.mem_cons_self _ _, rfl,
    by show (1 : ℚ) < 2; norm_num,
    delta_engine_negative_delta curEx prevEx (by decide) (by decide) (by decide) (by decide)
      (by decide) 0 (by decide) "minutes" (by decide) (by decide)
      prevRowEx (List.mem_cons_self _ _) rfl (by show (1 : ℚ) < 2; norm_num)⟩

theorem delta_engine_snapshot_passthrough_witness :
    ("id" ∈ prevEx.cols) ∧ ((prevEx.rows.map (fun r => r "id")).Nodup) ∧
    (∀ s ∈ SNAPSHOT_COLS, s ∈ curFullEx.cols) ∧
    ((compute_discrete_gameweek_stats curFullEx prevEx).rows.length = curFullEx.rows.length ∧
      ∀ i, i < curFullEx.rows.length → ∀ s ∈ SNAPSHOT_COLS,
        cellAt (compute_discrete_gameweek_stats curFullEx prevEx) i s = rowAt curFullEx i s) :=
  ⟨by decide, by decide, by decide,
    delta_engine_snapshot_passthrough curFullEx prevEx (by decide) (by decide) (by decide)⟩

/-! ### Claims about gameweek selection -/

/-- C5: when the events list is `l₁ ++ e :: l₂` with `e` finished and
data-checked, no later event completed, and `e` carrying a non-zero id `n`,
the selected gameweek is `n` — the id of the most recent completed round. -/
theorem gameweek_selection_last_completed (l₁ l₂ : List Event) (e : Event) (n : Int)
    (hfin : e.finished = true) (hchk : e.data_checked = true)
    (hid : e.id = some n) (hn : n ≠ 0)
    (hl₂ : ∀ x ∈ l₂, (x.finished && x.data_checked) = false) :
    get_last_completed_gameweek (l₁ ++ e :: l₂) = n := by
  have hfold : (l₁ ++ e :: l₂).foldl
      (fun acc ev => if ev.finished && ev.data_checked then ev.id else acc) (none : Option Int)
      = some n := by
    rw [List.foldl_append, List.foldl_cons]
    have hstep : ∀ acc : Option Int,
        (if e.finished && e.data_checked then e.id else acc) = some n := by
      intro acc
      rw [hfin, hchk, hid]
      rfl
    rw [hstep]
    exact foldl_fixed _ l₂ (fun x hx acc => by rw [hl₂ x hx]; rfl) _
  show (match (l₁ ++ e :: l₂).foldl
      (fun acc ev => if ev.finished && ev.data_checked then ev.id else acc) (none : Option Int) with
    | none => (1 : Int)
    | some m => if m = 0 then 1 else m) = n
  rw [hfold]
  show (if n = 0 then (1 : Int) else n) = n
  rw [if_neg hn]

/-- C10: when no event is both finished and data-checked (in particular for
an empty events list), the selected gameweek is 1. -/
theorem gameweek_selection_defaults_to_one (events : List Event)
    (h : ∀ x ∈ events, (x.finished && x.data_checked) = false) :
    get_last_completed_gameweek events = 1 := by
  have hfold : events.foldl
      (fun acc ev => if ev.finished && ev.data_checked then ev.id else acc) (none : Option Int)
      = none :=
    foldl_fixed _ events (fun x hx acc => by rw [h x hx]; rfl) none
  show (match events.foldl
      (fun acc ev => if ev.finished && ev.data_checked then ev.id else acc) (none : Option Int) with
    | none => (1 : Int)
    | some m => if m = 0 then (1 : Int) else m) = (1 : Int)
  rw [hfold]

/-- Scenario A events: round 3 completed and finalised, round 4 not. -/
def eventsEx : List Event :=
  [{ id := some 3, finished := true, data_checked := true },
   { id := some 4, finished := true, data_checked := false }]

theorem gameweek_selection_last_completed_witness :
    ({ id := some 3, finished := true, data_checked := true } : Event).finished = true ∧
    ({ id := some 3, finished := true, data_checked := true } : Event).data_checked = true ∧
    ({ id := some 3, finished := true, data_checked := true } : Event).id = some 3 ∧
    (3 : Int) ≠ 0 ∧
    (∀ x ∈ [({ id := some 4, finished := true, data_checked := false } : Event)],
      (x.finished && x.data_checked) = false) ∧
    get_last_completed_gameweek eventsEx = 3 :=
  ⟨rfl, rfl, rfl, by decide, by decide,
    gameweek_selection_last_completed []
      [{ id := some 4, finished := true, data_checked := false }]
      { id := some 3, finished := true, data_checked := true } 3
      rfl rfl rfl (by decide) (by decide)⟩

theorem gameweek_selection_defaults_to_one_witness :
    (∀ x ∈ [({ id := some 5, finished := true, data_checked := false } : Event)],
      (x.finished && x.data_checked) = false) ∧
    get_last_completed_gameweek
      [{ id := some 5, finished := true, data_checked := false }] = 1 :=
  ⟨by decide,
    gameweek_selection_defaults_to_one
      [{ id := some 5, finished := true, data_checked := false }] (by decide)⟩

/-! ### Claims about the orchestrator's empty-elements abort -/

/-- A bootstrap payload whose bulk fetch returned an empty player list. -/
def bootstrapEmptyEx : Bootstrap := { events := [], elements := { cols := [], rows := [] } }

/-- A second empty-elements payload (non-empty column list). -/
def bootstrapEmptyEx2 : Bootstrap := { events := [], elements := { cols := ["id"], rows := [] } }

/-- C4 counterexample: on an empty player list the run does abort before any
snapshot or discrete output (`none`), but `teams.csv` and `players.csv` have
already been written — so it is not true that no output file of any kind is
persisted. -/
theorem run_empty_elements_still_writes_master_files :
    "players.csv" ∈ (run bootstrapEmptyEx none true (fun _ => none)).1 ∧
    (run bootstrapEmptyEx none true (fun _ => none)).2 = none := by
  constructor
  · decide
  · rfl

/-- C4 amended: on an empty player list the run writes exactly the
`teams.csv` touch, `teams.csv` and `players.csv`, then aborts: no cumulative
snapshot and no discrete-stats file is written, and no discrete table is
produced. -/
theorem run_empty_elements_aborts_after_master_files (b : Bootstrap)
    (prevSnap : Option DataFrame) (backfillFlag : Bool)
    (fetch : Int → Option (List HistEntry)) (hb : b.elements.rows = []) :
    run b prevSnap backfillFlag fetch = (["teams.csv", "teams.csv", "players.csv"], none) := by
  have hbuild : build_cumulative_playerstats_snapshot b.elements
      (get_last_completed_gameweek b.events) = { cols := [], rows := [] } := by
    unfold build_cumulative_playerstats_snapshot
    rw [hb]
    rfl
  simp only [run, hbuild, List.isEmpty_nil, Bool.true_or, if_true]

theorem run_empty_elements_aborts_after_master_files_witness :
    bootstrapEmptyEx2.elements.rows = [] ∧
    run bootstrapEmptyEx2 none false (fun _ => none)
      = (["teams.csv", "teams.csv", "players.csv"], none) :=
  ⟨rfl, run_empty_elements_aborts_after_master_files bootstrapEmptyEx2 none false
    (fun _ => none) rfl⟩

/-! ### Characterisation of the backfill (History Aggregator) path -/

/-- The per-row function of `base_players` construction: schema mask plus the
`gw` assignment. -/
def backfillBaseRowF (df : DataFrame) (gw : Int) : (String → Val) → (String → Val) :=
  fun r s =>
    if s = "gw" then Val.num (gw : ℚ)
    else if s ∈ ID_COLS ++ ["gw"] ∧ s ∈ df.cols then r s else Val.na

/-- Columns after the `hist_fields` assignment loop. -/
def backfillCols1 : List String := hist_fields.foldl (addColIf (fun c => c)) (ID_COLS ++ ["gw"])

/-- Columns after the snapshot-NA loop. -/
def backfillCols2 : List String := SNAPSHOT_COLS.foldl (addColIf (fun c => c)) backfillCols1

/-- Columns after the missing-cumulative-zero loop. -/
def backfillCols3 : List String := CUMULATIVE_COLS.foldl (addColIf (fun c => c)) backfillCols2

/-- Columns after the cumulative numeric-coercion loop. -/
def backfillCols4 : List String := CUMULATIVE_COLS.foldl (addColIf (fun c => c)) backfillCols3

/-- The per-row function the whole backfill path applies to a raw element
row. -/
def backfillRowF (df : DataFrame) (fetch : Int → Option (List HistEntry)) (gw : Int) :
    (String → Val) → (String → Val) :=
  fun r s =>
    if s ∈ out_cols ∧ s ∈ backfillCols4 then
      rowFoldF (addColIf (fun c => c)) assignNumRowF backfillCols3 CUMULATIVE_COLS
        (rowFoldF (addColIf (fun c => c)) addZeroIfMissingRowF backfillCols2 CUMULATIVE_COLS
          (rowFoldF (addColIf (fun c => c)) addNaIfMissingRowF backfillCols1 SNAPSHOT_COLS
            (rowFoldF (addColIf (fun c => c))
              (histAssignRowF (backfillIds (backfillBase df gw)) fetch gw)
              (ID_COLS ++ ["gw"]) hist_fields
              (backfillBaseRowF df gw r)))) s
    else Val.na

theorem backfillBase_cols (df : DataFrame) (gw : Int) :
    (backfillBase df gw).cols = ID_COLS ++ ["gw"] := by
  show (if "gw" ∈ ID_COLS ++ ["gw"] then ID_COLS ++ ["gw"] else (ID_COLS ++ ["gw"]) ++ ["gw"]) = _
  rw [if_pos (by decide)]

theorem backfillBase_rows (df : DataFrame) (gw : Int) :
    (backfillBase df gw).rows = df.rows.map (backfillBaseRowF df gw) := by
  show ((df.rows.map fun r s => if s ∈ ID_COLS ++ ["gw"] ∧ s ∈ df.cols then r s else Val.na).map
      fun r s => if s = "gw" then Val.num (gw : ℚ) else r s) = _
  rw [List.map_map]
  rfl

theorem backfill_cols (df : DataFrame) (fetch : Int → Option (List HistEntry)) (gw : Int) :
    (backfill_last_gw_discrete_from_element_summary df fetch gw).cols = out_cols := rfl

theorem backfill_rows_eq (df : DataFrame) (fetch : Int → Option (List HistEntry)) (gw : Int) :
    (backfill_last_gw_discrete_from_element_summary df fetch gw).rows
      = df.rows.map (backfillRowF df fetch gw) := by
  show (ensureColumns (colFold (addColIf (fun c => c)) assignNumRowF
      (colFold (addColIf (fun c => c)) addZeroIfMissingRowF
        (colFold (addColIf (fun c => c)) addNaIfMissingRowF
          (colFold (addColIf (fun c => c))
            (histAssignRowF (backfillIds (backfillBase df gw)) fetch gw)
            (backfillBase df gw) hist_fields)
          SNAPSHOT_COLS)
        CUMULATIVE_COLS)
      CUMULATIVE_COLS) out_cols).rows = _
  rw [ensureColumns_rows, colFold_rows, colFold_cols, colFold_rows, colFold_cols,
    colFold_rows, colFold_cols, colFold_rows, colFold_cols,
    backfillBase_rows, backfillBase_cols,
    List.map_map, List.map_map, List.map_map, List.map_map, List.map_map]
  rfl

set_option maxRecDepth 40000

theorem hist_sub_cols12 : ∀ k ∈ hist_fields, k ∈ backfillCols1 ∧ k ∈ backfillCols2 := by decide

theorem hist_sub_cols4 : ∀ k ∈ hist_fields, k ∈ backfillCols4 := by decide

theorem snap_notin_cols1 : ∀ s ∈ SNAPSHOT_COLS, s ∉ backfillCols1 := by decide

theorem snap_sub_cols4 : ∀ s ∈ SNAPSHOT_COLS, s ∈ backfillCols4 := by decide

theorem cum_nonhist_notin_cols2 :
    ∀ c ∈ CUMULATIVE_COLS, c ∉ hist_fields → c ∉ backfillCols2 := by decide

theorem cum_sub_cols4 : ∀ c ∈ CUMULATIVE_COLS, c ∈ backfillCols4 := by decide

theorem addColIf_mono (g : String → String) (cols : List String) (c x : String)
    (hx : x ∈ cols) : x ∈ addColIf g cols c := by
  unfold addColIf
  by_cases h : g c ∈ cols
  · rw [if_pos h]; exact hx
  · rw [if_neg h]; exact List.mem_append.mpr (Or.inl hx)

/-- What the backfill writes into an aggregatable (`hist_fields`) cell. -/
theorem backfillRowF_hist (df : DataFrame) (fetch : Int → Option (List HistEntry)) (gw : Int)
    (r : String → Val) (k : String) (hk : k ∈ hist_fields) :
    backfillRowF df fetch gw r k
      = Val.num (toNumFill 0 (histCellF (backfillIds (backfillBase df gw)) fetch gw k
          (if "id" ∈ df.cols then r "id" else Val.na))) := by
  have hkcum : k ∈ CUMULATIVE_COLS := hist_sub_cum k hk
  have hbase : backfillBaseRowF df gw r "id" = (if "id" ∈ df.cols then r "id" else Val.na) := by
    unfold backfillBaseRowF
    rw [if_neg (by decide : ¬ ("id" : String) = "gw")]
    by_cases h : "id" ∈ df.cols
    · rw [if_pos ⟨(by decide : ("id" : String) ∈ ID_COLS ++ ["gw"]), h⟩, if_pos h]
    · rw [if_neg (fun hand => h hand.2), if_neg h]
  unfold backfillRowF
  rw [if_pos ⟨cum_sub_out k hkcum, hist_sub_cols4 k hk⟩]
  generalize hR2 : rowFoldF (addColIf (fun c => c)) addNaIfMissingRowF backfillCols1 SNAPSHOT_COLS
      (rowFoldF (addColIf (fun c => c))
        (histAssignRowF (backfillIds (backfillBase df gw)) fetch gw)
        (ID_COLS ++ ["gw"]) hist_fields (backfillBaseRowF df gw r)) = R2
  generalize hR3 : rowFoldF (addColIf (fun c => c)) addZeroIfMissingRowF backfillCols2
      CUMULATIVE_COLS R2 = R3
  obtain ⟨l₁, l₂, hsplit⟩ := List.append_of_mem hkcum
  have hnd : (l₁ ++ k :: l₂).Nodup := hsplit ▸ cum_nodup
  have hkl₁ : k ∉ l₁ := fun h =>
    (List.disjoint_of_nodup_append hnd) h (List.mem_cons_self k l₂)
  have hkl₂ : k ∉ l₂ := (List.nodup_cons.mp (List.nodup_append.mp hnd).2.1).1
  have hstep4 : rowFoldF (addColIf (fun c => c)) assignNumRowF backfillCols3 CUMULATIVE_COLS R3 k
      = Val.num (toNumFill 0 (R3 k)) := by
    conv_lhs => rw [hsplit]
    rw [rowFoldF_target _ _ k l₁ l₂ _ _ (fun cols' x r' hx => by
      simp only [assignNumRowF]
      rw [if_neg (show ¬ k = x from fun he => hkl₂ (he ▸ hx))])]
    simp only [assignNumRowF]
    rw [if_pos trivial]
    rw [rowFoldF_untouched _ _ k l₁ _ _ (fun cols' x r' hx => by
      simp only [assignNumRowF]
      rw [if_neg (show ¬ k = x from fun he => hkl₁ (he ▸ hx))])]
  rw [hstep4]
  have hstep3 : R3 k = R2 k := by
    rw [← hR3]
    exact rowFoldF_untouched_inv _ _ k (fun cols => k ∈ cols) CUMULATIVE_COLS _ _
      (hist_sub_cols12 k hk).2
      (fun cols' c _ hP => addColIf_mono _ cols' c k hP)
      (fun cols' c r' _ hP => by
        simp only [addZeroIfMissingRowF]
        by_cases h : c ∈ cols'
        · rw [if_pos h]
        · rw [if_neg h, if_neg (show ¬ k = c from fun he => h (he ▸ hP))])
  rw [hstep3]
  have hstep2 : R2 k = rowFoldF (addColIf (fun c => c))
      (histAssignRowF (backfillIds (backfillBase df gw)) fetch gw)
      (ID_COLS ++ ["gw"]) hist_fields (backfillBaseRowF df gw r) k := by
    rw [← hR2]
    exact rowFoldF_untouched _ _ k SNAPSHOT_COLS _ _ (fun cols' c r' hc => by
      simp only [addNaIfMissingRowF]
      by_cases h : c ∈ cols'
      · rw [if_pos h]
      · rw [if_neg h, if_neg (show ¬ k = c from fun he => hist_snap_disjoint k hk (he ▸ hc))])
  rw [hstep2]
  obtain ⟨m₁, m₂, hsplit2⟩ := List.append_of_mem hk
  have hnd2 : (m₁ ++ k :: m₂).Nodup := hsplit2 ▸ hist_nodup
  have hkm₁ : k ∉ m₁ := fun h =>
    (List.disjoint_of_nodup_append hnd2) h (List.mem_cons_self k m₂)
  have hkm₂ : k ∉ m₂ := (List.nodup_cons.mp (List.nodup_append.mp hnd2).2.1).1
  have hm₁sub : ∀ x ∈ m₁, x ∈ hist_fields := fun x hx => by
    rw [hsplit2]
    exact List.mem_append.mpr (Or.inl hx)
  have hstep1 : rowFoldF (addColIf (fun c => c))
      (histAssignRowF (backfillIds (backfillBase df gw)) fetch gw)
      (ID_COLS ++ ["gw"]) hist_fields (backfillBaseRowF df gw r) k
      = histCellF (backfillIds (backfillBase df gw)) fetch gw k
          (backfillBaseRowF df gw r "id") := by
    conv_lhs => rw [hsplit2]
    rw [rowFoldF_target _ _ k m₁ m₂ _ _ (fun cols' x r' hx => by
      simp only [histAssignRowF]
      rw [if_neg (show ¬ k = x from fun he => hkm₂ (he ▸ hx))])]
    simp only [histAssignRowF]
    rw [if_pos trivial]
    rw [rowFoldF_untouched _ _ "id" m₁ _ _ (fun cols' x r' hx => by
      simp only [histAssignRowF]
      rw [if_neg (show ¬ ("id" : String) = x from fun he =>
        id_notin_hist (he ▸ hm₁sub x hx))])]
  rw [hstep1, hbase]

/-- Every point-in-time (snapshot) column of the backfill output is `NA`. -/
theorem backfillRowF_snap (df : DataFrame) (fetch : Int → Option (List HistEntry)) (gw : Int)
    (r : String → Val) (s : String) (hs : s ∈ SNAPSHOT_COLS) :
    backfillRowF df fetch gw r s = Val.na := by
  unfold backfillRowF
  rw [if_pos ⟨snap_sub_out s hs, snap_sub_cols4 s hs⟩]
  generalize hR1 : rowFoldF (addColIf (fun c => c))
      (histAssignRowF (backfillIds (backfillBase df gw)) fetch gw)
      (ID_COLS ++ ["gw"]) hist_fields (backfillBaseRowF df gw r) = R1
  have h4 : ∀ R : String → Val,
      rowFoldF (addColIf (fun c => c)) assignNumRowF backfillCols3 CUMULATIVE_COLS R s = R s :=
    fun R => rowFoldF_untouched _ _ s CUMULATIVE_COLS _ _ (fun cols' c r' hc => by
      simp only [assignNumRowF]
      rw [if_neg (show ¬ s = c from fun he => snap_cum_disjoint s hs (he ▸ hc))])
  rw [h4]
  have h3 : ∀ R : String → Val,
      rowFoldF (addColIf (fun c => c)) addZeroIfMissingRowF backfillCols2 CUMULATIVE_COLS R s
        = R s :=
    fun R => rowFoldF_untouched _ _ s CUMULATIVE_COLS _ _ (fun cols' c r' hc => by
      simp only [addZeroIfMissingRowF]
      by_cases h : c ∈ cols'
      · rw [if_pos h]
      · rw [if_neg h, if_neg (show ¬ s = c from fun he => snap_cum_disjoint s hs (he ▸ hc))])
  rw [h3]
  obtain ⟨l₁, l₂, hsplit⟩ := List.append_of_mem hs
  have hnd : (l₁ ++ s :: l₂).Nodup := hsplit ▸ snap_nodup
  have hsl₁ : s ∉ l₁ := fun h =>
    (List.disjoint_of_nodup_append hnd) h (List.mem_cons_self s l₂)
  have hsl₂ : s ∉ l₂ := (List.nodup_cons.mp (List.nodup_append.mp hnd).2.1).1
  conv_lhs => rw [hsplit]
  rw [rowFoldF_target _ _ s l₁ l₂ _ _ (fun cols' x r' hx => by
    simp only [addNaIfMissingRowF]
    by_cases h : x ∈ cols'
    · rw [if_pos h]
    · rw [if_neg h, if_neg (show ¬ s = x from fun he => hsl₂ (he ▸ hx))])]
  simp only [addNaIfMissingRowF]
  have hnotin : s ∉ l₁.foldl (addColIf (fun c => c)) backfillCols1 := by
    rw [mem_foldl_addColIf]
    rintro (h | ⟨c, hc, hce⟩)
    · exact snap_notin_cols1 s hs h
    · have hce' : s = c := hce
      exact hsl₁ (hce' ▸ hc)
  rw [if_neg hnotin, if_pos trivial]

/-- Every cumulative column with no match-history equivalent is `0` in the
backfill output. -/
theorem backfillRowF_cum_nonhist (df : DataFrame) (fetch : Int → Option (List HistEntry))
    (gw : Int) (r : String → Val) (c : String) (hc : c ∈ CUMULATIVE_COLS)
    (hch : c ∉ hist_fields) :
    backfillRowF df fetch gw r c = Val.num 0 := by
  unfold backfillRowF
  rw [if_pos ⟨cum_sub_out c hc, cum_sub_cols4 c hc⟩]
  generalize hR2 : rowFoldF (addColIf (fun c => c)) addNaIfMissingRowF backfillCols1 SNAPSHOT_COLS
      (rowFoldF (addColIf (fun c => c))
        (histAssignRowF (backfillIds (backfillBase df gw)) fetch gw)
        (ID_COLS ++ ["gw"]) hist_fields (backfillBaseRowF df gw r)) = R2
  generalize hR3 : rowFoldF (addColIf (fun c => c)) addZeroIfMissingRowF backfillCols2
      CUMULATIVE_COLS R2 = R3
  obtain ⟨l₁, l₂, hsplit⟩ := List.append_of_mem hc
  have hnd : (l₁ ++ c :: l₂).Nodup := hsplit ▸ cum_nodup
  have hcl₁ : c ∉ l₁ := fun h =>
    (List.disjoint_of_nodup_append hnd) h (List.mem_cons_self c l₂)
  have hcl₂ : c ∉ l₂ := (List.nodup_cons.mp (List.nodup_append.mp hnd).2.1).1
  have hstep4 : rowFoldF (addColIf (fun c => c)) assignNumRowF backfillCols3 CUMULATIVE_COLS R3 c
      = Val.num (toNumFill 0 (R3 c)) := by
    conv_lhs => rw [hsplit]
    rw [rowFoldF_target _ _ c l₁ l₂ _ _ (fun cols' x r' hx => by
      simp only [assignNumRowF]
      rw [if_neg (show ¬ c = x from fun he => hcl₂ (he ▸ hx))])]
    simp only [assignNumRowF]
    rw [if_pos trivial]
    rw [rowFoldF_untouched _ _ c l₁ _ _ (fun cols' x r' hx => by
      simp only [assignNumRowF]
      rw [if_neg (show ¬ c = x from fun he => hcl₁ (he ▸ hx))])]
  rw [hstep4]
  have hstep3 : R3 c = Val.num 0 := by
    rw [← hR3]
    conv_lhs => rw [hsplit]
    rw [rowFoldF_target _ _ c l₁ l₂ _ _ (fun cols' x r' hx => by
      simp only [addZeroIfMissingRowF]
      by_cases h : x ∈ cols'
      · rw [if_pos h]
      · rw [if_neg h, if_neg (show ¬ c = x from fun he => hcl₂ (he ▸ hx))])]
    simp only [addZeroIfMissingRowF]
    have hnotin : c ∉ l₁.foldl (addColIf (fun c => c)) backfillCols2 := by
      rw [mem_foldl_addColIf]
      rintro (h | ⟨x, hx, hxe⟩)
      · exact cum_nonhist_notin_cols2 c hc hch h
      · have hxe' : c = x := hxe
        exact hcl₁ (hxe' ▸ hx)
    rw [if_neg hnotin, if_pos trivial]
  rw [hstep3]
  rfl

theorem rowAt_eq_get (df : DataFrame) (i : Nat) (hi : i < df.rows.length) :
    rowAt df i = df.rows.get ⟨i, hi⟩ := by
  unfold rowAt
  simp [List.getD, List.getElem?_eq_getElem hi]

theorem foldl_nanAdd_eq_sum (k : String) (l : List HistEntry)
    (h : ∀ e ∈ l, ∃ x, (e.vals k).getD (Val.num 0) = Val.num x) :
    ∀ a : ℚ, l.foldl (fun acc e => nanAdd acc (histVal (e.vals k))) (some a)
      = some (a + (l.map (fun e => toNumFill 0 ((e.vals k).getD (Val.num 0)))).sum) := by
  induction l with
  | nil => intro a; simp
  | cons e t ih =>
    intro a
    obtain ⟨x, hx⟩ := h e (List.mem_cons_self e t)
    have hv : histVal (e.vals k) = some x := by
      unfold histVal
      rw [hx]
    rw [List.foldl_cons]
    show t.foldl _ (nanAdd (some a) (histVal (e.vals k))) = _
    rw [hv]
    show t.foldl _ (some (a + x)) = _
    rw [ih (fun y hy => h y (List.mem_cons_of_mem e hy)) (a + x)]
    congr 1
    rw [List.map_cons, List.sum_cons]
    have hval : toNumFill 0 ((e.vals k).getD (Val.num 0)) = x := by
      rw [hx]
      rfl
    rw [hval]
    ring

theorem aggFor_eq_sum (hist : List HistEntry) (gw : Int) (k : String)
    (h : ∀ e ∈ hist, ∃ x, (e.vals k).getD (Val.num 0) = Val.num x) :
    aggFor hist gw k = some (((hist.filter (fun e => e.round == gw)).map
      (fun e => toNumFill 0 ((e.vals k).getD (Val.num 0)))).sum) := by
  unfold aggFor
  rw [foldl_nanAdd_eq_sum k _ (fun e he => h e (List.mem_of_mem_filter he)) 0]
  rw [zero_add]

/-- The per-player fetch function only influences a row through the value
`histCellF` yields at the row's own id. -/
theorem backfillRowF_fetch_congr (df : DataFrame)
    (fetch fetchP : Int → Option (List HistEntry)) (gw : Int) (r : String → Val)
    (h : ∀ k ∈ hist_fields,
      histCellF (backfillIds (backfillBase df gw)) fetch gw k (backfillBaseRowF df gw r "id")
        = histCellF (backfillIds (backfillBase df gw)) fetchP gw k
            (backfillBaseRowF df gw r "id")) :
    backfillRowF df fetch gw r = backfillRowF df fetchP gw r := by
  have hf1 : rowFoldF (addColIf (fun c => c))
      (histAssignRowF (backfillIds (backfillBase df gw)) fetch gw)
      (ID_COLS ++ ["gw"]) hist_fields (backfillBaseRowF df gw r)
      = rowFoldF (addColIf (fun c => c))
        (histAssignRowF (backfillIds (backfillBase df gw)) fetchP gw)
        (ID_COLS ++ ["gw"]) hist_fields (backfillBaseRowF df gw r) := by
    apply rowFoldF_congr_inv _ _ _
      (fun rr => rr "id" = backfillBaseRowF df gw r "id") hist_fields _ _ rfl
    · intro cols' c r' hc hq
      show histAssignRowF _ fetch gw cols' c r' "id" = _
      simp only [histAssignRowF]
      rw [if_neg (show ¬ ("id" : String) = c from fun he => id_notin_hist (he ▸ hc))]
      exact hq
    · intro cols' c r' hc hq
      funext s
      simp only [histAssignRowF]
      by_cases hsc : s = c
      · rw [if_pos hsc, if_pos hsc, hq, h c hc]
      · rw [if_neg hsc, if_neg hsc]
  funext s
  unfold backfillRowF
  rw [hf1]

/-! ### Claims about the History Aggregator -/

/-- C3: for a player whose id is numeric and whose element-summary retrieval
succeeds with all-numeric history values, every aggregatable field of the
backfill output equals the field-wise sum over exactly the history entries
whose round equals the target gameweek (an empty selection gives the numeric
zero, a double-gameweek selection the sum of both entries); the output has
one row per input row. -/
theorem history_aggregator_round_sum (df : DataFrame)
    (fetch : Int → Option (List HistEntry)) (gw : Int)
    (hid : "id" ∈ df.cols) (i : Nat) (hi : i < df.rows.length)
    (q : ℚ) (hq : rowAt df i "id" = Val.num q)
    (hist : List HistEntry) (hf : fetch (ratTrunc q) = some hist)
    (hnum : ∀ e ∈ hist, ∀ k ∈ hist_fields, ∃ x, (e.vals k).getD (Val.num 0) = Val.num x) :
    (backfill_last_gw_discrete_from_element_summary df fetch gw).rows.length
      = df.rows.length ∧
    ∀ k ∈ hist_fields,
      cellAt (backfill_last_gw_discrete_from_element_summary df fetch gw) i k
        = Val.num (((hist.filter (fun e => e.round == gw)).map
            (fun e => toNumFill 0 ((e.vals k).getD (Val.num 0)))).sum) := by
  have hrows := backfill_rows_eq df fetch gw
  refine ⟨by rw [hrows, List.length_map], ?_⟩
  intro k hk
  rw [cellAt_of_rows_map_df hrows i hi k, backfillRowF_hist df fetch gw _ k hk, if_pos hid, hq]
  show Val.num (toNumFill 0 (optToVal (resultsGet (backfillIds (backfillBase df gw)) fetch gw
      (ratTrunc q) k))) = _
  have hmem : ratTrunc q ∈ backfillIds (backfillBase df gw) := by
    unfold backfillIds
    apply List.mem_filterMap.mpr
    refine ⟨backfillBaseRowF df gw (rowAt df i), ?_, ?_⟩
    · rw [backfillBase_rows]
      refine List.mem_map_of_mem _ ?_
      rw [rowAt_eq_get df i hi]
      exact List.get_mem _ _ hi
    · have hbid : backfillBaseRowF df gw (rowAt df i) "id" = Val.num q := by
        unfold backfillBaseRowF
        rw [if_neg (by decide : ¬ ("id" : String) = "gw"),
          if_pos ⟨(by decide : ("id" : String) ∈ ID_COLS ++ ["gw"]), hid⟩, hq]
      rw [hbid]
  unfold resultsGet
  rw [if_pos ⟨hmem, hk⟩, hf]
  show Val.num (toNumFill 0 (optToVal (aggFor hist gw k))) = _
  rw [aggFor_eq_sum hist gw k (fun e he => hnum e he k hk)]
  rfl

/-- C9: in the backfill output every point-in-time (snapshot) column is
`NA` for every row, and every cumulative column with no match-history
equivalent is numeric zero for every row. -/
theorem backfill_pointintime_null_and_nonhist_zero (df : DataFrame)
    (fetch : Int → Option (List HistEntry)) (gw : Int) (i : Nat)
    (hi : i < df.rows.length) :
    (backfill_last_gw_discrete_from_element_summary df fetch gw).rows.length
      = df.rows.length ∧
    (∀ s ∈ SNAPSHOT_COLS,
      cellAt (backfill_last_gw_discrete_from_element_summary df fetch gw) i s = Val.na) ∧
    (∀ c ∈ CUMULATIVE_COLS, c ∉ hist_fields →
      cellAt (backfill_last_gw_discrete_from_element_summary df fetch gw) i c
        = Val.num 0) := by
  have hrows := backfill_rows_eq df fetch gw
  refine ⟨by rw [hrows, List.length_map], ?_, ?_⟩
  · intro s hs
    rw [cellAt_of_rows_map_df hrows i hi s]
    exact backfillRowF_snap df fetch gw _ s hs
  · intro c hc hch
    rw [cellAt_of_rows_map_df hrows i hi c]
    exact backfillRowF_cum_nonhist df fetch gw _ c hc hch

/-- C6: a retrieval failure for one player id is isolated: rows whose id is
not that player are bit-for-bit identical to the run where the retrieval
succeeded, and the failed player's aggregatable fields are all numeric
zero. -/
theorem backfill_single_failure_isolated (df : DataFrame)
    (fetch : Int → Option (List HistEntry)) (gw : Int) (pid : Int)
    (hid : "id" ∈ df.cols) (i : Nat) (hi : i < df.rows.length) :
    ((backfill_last_gw_discrete_from_element_summary df
        (fun x => if x = pid then none else fetch x) gw).rows.length
      = (backfill_last_gw_discrete_from_element_summary df fetch gw).rows.length) ∧
    ((∀ q : ℚ, rowAt df i "id" = Val.num q → ratTrunc q ≠ pid) →
      ∀ s, cellAt (backfill_last_gw_discrete_from_element_summary df
          (fun x => if x = pid then none else fetch x) gw) i s
        = cellAt (backfill_last_gw_discrete_from_element_summary df fetch gw) i s) ∧
    (∀ q : ℚ, rowAt df i "id" = Val.num q → ratTrunc q = pid →
      ∀ k ∈ hist_fields,
        cellAt (backfill_last_gw_discrete_from_element_summary df
          (fun x => if x = pid then none else fetch x) gw) i k = Val.num 0) := by
  have hrowsF := backfill_rows_eq df (fun x => if x = pid then none else fetch x) gw
  have hrows := backfill_rows_eq df fetch gw
  have hbid : backfillBaseRowF df gw (rowAt df i) "id" = rowAt df i "id" := by
    unfold backfillBaseRowF
    rw [if_neg (by decide : ¬ ("id" : String) = "gw"),
      if_pos ⟨(by decide : ("id" : String) ∈ ID_COLS ++ ["gw"]), hid⟩]
  refine ⟨by rw [hrowsF, hrows, List.length_map, List.length_map], ?_, ?_⟩
  · intro hne s
    rw [cellAt_of_rows_map_df hrowsF i hi s, cellAt_of_rows_map_df hrows i hi s]
    have hcells : ∀ k ∈ hist_fields,
        histCellF (backfillIds (backfillBase df gw)) (fun x => if x = pid then none else fetch x)
          gw k (backfillBaseRowF df gw (rowAt df i) "id")
          = histCellF (backfillIds (backfillBase df gw)) fetch gw k
              (backfillBaseRowF df gw (rowAt df i) "id") := by
      intro k hk
      rw [hbid]
      cases hval : rowAt df i "id" with
      | num q =>
        have hne' : ratTrunc q ≠ pid := hne q hval
        show optToVal (resultsGet (backfillIds (backfillBase df gw))
            (fun x => if x = pid then none else fetch x) gw (ratTrunc q) k)
          = optToVal (resultsGet (backfillIds (backfillBase df gw)) fetch gw (ratTrunc q) k)
        unfold resultsGet
        by_cases hcond : ratTrunc q ∈ backfillIds (backfillBase df gw) ∧ k ∈ hist_fields
        · rw [if_pos hcond, if_pos hcond]
          have hfe : (fun x => if x = pid then none else fetch x) (ratTrunc q)
              = fetch (ratTrunc q) := by
            show (if ratTrunc q = pid then none else fetch (ratTrunc q)) = fetch (ratTrunc q)
            rw [if_neg hne']
          rw [hfe]
        · rw [if_neg hcond, if_neg hcond]
      | str t => rfl
      | na => rfl
    exact congrFun (backfillRowF_fetch_congr df (fun x => if x = pid then none else fetch x)
      fetch gw (rowAt df i) hcells) s
  · intro q hq hqp k hk
    rw [cellAt_of_rows_map_df hrowsF i hi k,
      backfillRowF_hist df (fun x => if x = pid then none else fetch x) gw _ k hk,
      if_pos hid, hq]
    show Val.num (toNumFill 0 (optToVal (resultsGet (backfillIds (backfillBase df gw))
        (fun x => if x = pid then none else fetch x) gw (ratTrunc q) k))) = _
    have hres : resultsGet (backfillIds (backfillBase df gw))
        (fun x => if x = pid then none else fetch x) gw (ratTrunc q) k = some 0 := by
      unfold resultsGet
      by_cases hcond : ratTrunc q ∈ backfillIds (backfillBase df gw) ∧ k ∈ hist_fields
      · rw [if_pos hcond]
        have hfe : (fun x => if x = pid then none else fetch x) (ratTrunc q)
            = (none : Option (List HistEntry)) := by
          show (if ratTrunc q = pid then none else fetch (ratTrunc q)) = none
          rw [if_pos hqp]
        rw [hfe]
      · rw [if_neg hcond]
    rw [hres]
    rfl

/-! ### Concrete backfill inputs used by the witnesses -/

/-- A double-gameweek history entry with one goal scored. -/
def histEntryEx1 : HistEntry :=
  { round := 7, vals := fun k => some (Val.num (if k = "goals_scored" then 1 else 0)) }

/-- A second same-round history entry, all zeroes. -/
def histEntryEx2 : HistEntry :=
  { round := 7, vals := fun _ => some (Val.num 0) }

/-- A double gameweek: two entries in round 7. -/
def histEx : List HistEntry := [histEntryEx1, histEntryEx2]

/-- A one-player elements table (id 5). -/
def elementsEx : DataFrame :=
  { cols := ["id"], rows := [fun s => if s = "id" then Val.num 5 else Val.na] }

/-- An element-summary endpoint returning the double-gameweek history for
every player. -/
def fetchEx : Int → Option (List HistEntry) := fun _ => some histEx

theorem history_aggregator_round_sum_witness :
    ("id" ∈ elementsEx.cols) ∧ ((0 : Nat) < elementsEx.rows.length) ∧
    (rowAt elementsEx 0 "id" = Val.num 5) ∧ (fetchEx (ratTrunc 5) = some histEx) ∧
    (∀ e ∈ histEx, ∀ k ∈ hist_fields, ∃ x, (e.vals k).getD (Val.num 0) = Val.num x) ∧
    ((backfill_last_gw_discrete_from_element_summary elementsEx fetchEx 7).rows.length
        = elementsEx.rows.length ∧
      ∀ k ∈ hist_fields,
        cellAt (backfill_last_gw_discrete_from_element_summary elementsEx fetchEx 7) 0 k
          = Val.num (((histEx.filter (fun e => e.round == 7)).map
              (fun e => toNumFill 0 ((e.vals k).getD (Val.num 0)))).sum)) :=
  ⟨by decide, by decide, rfl, rfl,
    by
      intro e he k hk
      rcases List.mem_cons.mp he with he1 | he2
      · subst he1
        exact ⟨_, rfl⟩
      · rcases List.mem_singleton.mp he2 with rfl
        exact ⟨_, rfl⟩,
    history_aggregator_round_sum elementsEx fetchEx 7 (by decide) 0 (by decide) 5 rfl histEx rfl
      (by
        intro e he k hk
        rcases List.mem_cons.mp he with he1 | he2
        · subst he1
          exact ⟨_, rfl⟩
        · rcases List.mem_singleton.mp he2 with rfl
          exact ⟨_, rfl⟩)⟩

theorem backfill_pointintime_null_and_nonhist_zero_witness :
    ((0 : Nat) < elementsEx.rows.length) ∧
    ((backfill_last_gw_discrete_from_element_summary elementsEx fetchEx 7).rows.length
        = elementsEx.rows.length ∧
      (∀ s ∈ SNAPSHOT_COLS,
        cellAt (backfill_last_gw_discrete_from_element_summary elementsEx fetchEx 7) 0 s
          = Val.na) ∧
      (∀ c ∈ CUMULATIVE_COLS, c ∉ hist_fields →
        cellAt (backfill_last_gw_discrete_from_element_summary elementsEx fetchEx 7) 0 c
          = Val.num 0)) :=
  ⟨by decide, backfill_pointintime_null_and_nonhist_zero elementsEx fetchEx 7 0 (by decide)⟩

theorem backfill_single_failure_isolated_witness :
    ("id" ∈ elementsEx.cols) ∧ ((0 : Nat) < elementsEx.rows.length) ∧
    (((backfill_last_gw_discrete_from_element_summary elementsEx
        (fun x => if x = 9 then none else fetchEx x) 7).rows.length
      = (backfill_last_gw_discrete_from_element_summary elementsEx fetchEx 7).rows.length) ∧
    ((∀ q : ℚ, rowAt elementsEx 0 "id" = Val.num q → ratTrunc q ≠ 9) →
      ∀ s, cellAt (backfill_last_gw_discrete_from_element_summary elementsEx
          (fun x => if x = 9 then none else fetchEx x) 7) 0 s
        = cellAt (backfill_last_gw_discrete_from_element_summary elementsEx fetchEx 7) 0 s) ∧
    (∀ q : ℚ, rowAt elementsEx 0 "id" = Val.num q → ratTrunc q = 9 →
      ∀ k ∈ hist_fields,
        cellAt (backfill_last_gw_discrete_from_element_summary elementsEx
          (fun x => if x = 9 then none else fetchEx x) 7) 0 k = Val.num 0)) :=
  ⟨by decide, by decide,
    backfill_single_failure_isolated elementsEx fetchEx 7 9 (by decide) 0 (by decide)⟩

/-! ### Characterisation of the snapshot builder -/

theorem gw_in_out : ("gw" : String) ∈ out_cols := by decide

theorem gw_notin_numeric_like : ("gw" : String) ∉ numeric_like_snapshot := by decide

/-- Columns after `elements_df["gw"] = gw`. -/
def buildGwCols (df : DataFrame) : List String :=
  if "gw" ∈ df.cols then df.cols else df.cols ++ ["gw"]

/-- The per-row function the whole snapshot builder applies to a raw element
row (on a non-empty input frame). -/
def buildRowF (df : DataFrame) (gw : Int) : (String → Val) → (String → Val) :=
  fun r =>
    rowFoldF (fun cols _ => cols) coerceIfPresentRowF
      (CUMULATIVE_COLS.foldl (addColIf (fun c => c)) out_cols) numeric_like_snapshot
      (rowFoldF (addColIf (fun c => c)) assignNumRowF out_cols CUMULATIVE_COLS
        (fun s => if s ∈ out_cols ∧ s ∈ buildGwCols df then
            (if s = "gw" then Val.num (gw : ℚ) else r s)
          else Val.na))

theorem build_nonempty_cond (df : DataFrame) (hr : df.rows ≠ []) (hc : df.cols ≠ []) :
    ¬ ((df.rows.isEmpty || df.cols.isEmpty) = true) := by
  simp only [Bool.or_eq_true, List.isEmpty_iff]
  rintro (h | h)
  · exact hr h
  · exact hc h

theorem build_cols_eq (df : DataFrame) (gw : Int) (hr : df.rows ≠ []) (hc : df.cols ≠ []) :
    (build_cumulative_playerstats_snapshot df gw).cols = out_cols := by
  unfold build_cumulative_playerstats_snapshot
  rw [if_neg (build_nonempty_cond df hr hc)]
  rw [colFold_cols, colFold_cols]
  have h1 : CUMULATIVE_COLS.foldl (addColIf (fun c => c))
      (ensureColumns (setCol df "gw" (Val.num (gw : ℚ))) out_cols).cols = out_cols :=
    foldl_addColIf_stable _ _ _ (fun c hcm => cum_sub_out c hcm)
  rw [h1]
  exact foldl_fixed _ _ (fun x hx acc => rfl) out_cols

theorem build_rows_eq (df : DataFrame) (gw : Int) (hr : df.rows ≠ []) (hc : df.cols ≠ []) :
    (build_cumulative_playerstats_snapshot df gw).rows = df.rows.map (buildRowF df gw) := by
  unfold build_cumulative_playerstats_snapshot
  rw [if_neg (build_nonempty_cond df hr hc)]
  rw [colFold_rows, colFold_cols, colFold_rows, ensureColumns_cols, ensureColumns_rows,
    setCol_rows, List.map_map, List.map_map, List.map_map]
  rfl

/-- The snapshot builder's cumulative cells: numeric coercion with default
zero, and zero for a column absent from the input. -/
theorem buildRowF_cum (df : DataFrame) (gw : Int) (r : String → Val)
    (c : String) (hc : c ∈ CUMULATIVE_COLS) :
    buildRowF df gw r c = Val.num (if c ∈ df.cols then toNumFill 0 (r c) else 0) := by
  have hcgw : c ≠ "gw" := fun he => gw_notin_cum (he ▸ hc)
  have hbg : (c ∈ buildGwCols df) ↔ c ∈ df.cols := by
    unfold buildGwCols
    by_cases h : "gw" ∈ df.cols
    · rw [if_pos h]
    · rw [if_neg h, List.mem_append, List.mem_singleton]
      constructor
      · rintro (hx | hx)
        · exact hx
        · exact absurd hx hcgw
      · exact Or.inl
  unfold buildRowF
  rw [rowFoldF_untouched _ _ c numeric_like_snapshot _ _ (fun cols' x r' hx => by
    simp only [coerceIfPresentRowF]
    by_cases h : x ∈ cols'
    · rw [if_pos h, if_neg (show ¬ c = x from fun he => cum_notin_numeric_like c hc (he ▸ hx))]
    · rw [if_neg h])]
  obtain ⟨l₁, l₂, hsplit⟩ := List.append_of_mem hc
  have hnd : (l₁ ++ c :: l₂).Nodup := hsplit ▸ cum_nodup
  have hcl₁ : c ∉ l₁ := fun h =>
    (List.disjoint_of_nodup_append hnd) h (List.mem_cons_self c l₂)
  have hcl₂ : c ∉ l₂ := (List.nodup_cons.mp (List.nodup_append.mp hnd).2.1).1
  conv_lhs => rw [hsplit]
  rw [rowFoldF_target _ _ c l₁ l₂ _ _ (fun cols' x r' hx => by
    simp only [assignNumRowF]
    rw [if_neg (show ¬ c = x from fun he => hcl₂ (he ▸ hx))])]
  simp only [assignNumRowF]
  rw [if_pos trivial]
  rw [rowFoldF_untouched _ _ c l₁ _ _ (fun cols' x r' hx => by
    simp only [assignNumRowF]
    rw [if_neg (show ¬ c = x from fun he => hcl₁ (he ▸ hx))])]
  by_cases h : c ∈ df.cols
  · rw [if_pos ⟨cum_sub_out c hc, hbg.mpr h⟩, if_neg hcgw, if_pos h]
  · rw [if_neg (fun hand => h (hbg.mp hand.2)), if_neg h]
    rfl

/-- A point-in-time column missing from the input stays null through the
snapshot builder. -/
theorem buildRowF_snap_missing (df : DataFrame) (gw : Int) (r : String → Val)
    (s : String) (hs : s ∈ SNAPSHOT_COLS) (hmiss : s ∉ df.cols) :
    buildRowF df gw r s = Val.na := by
  have hsgw : s ≠ "gw" := fun he => snap_notin_idgw s hs (by rw [he]; decide)
  have hbg : s ∉ buildGwCols df := by
    unfold buildGwCols
    by_cases h : "gw" ∈ df.cols
    · rw [if_pos h]
      exact hmiss
    · rw [if_neg h, List.mem_append, List.mem_singleton]
      rintro (hx | hx)
      · exact hmiss hx
      · exact hsgw hx
  unfold buildRowF
  have hmask : (fun t => if t ∈ out_cols ∧ t ∈ buildGwCols df then
      (if t = "gw" then Val.num (gw : ℚ) else r t) else Val.na) s = Val.na := by
    show (if s ∈ out_cols ∧ s ∈ buildGwCols df then
      (if s = "gw" then Val.num (gw : ℚ) else r s) else Val.na) = Val.na
    rw [if_neg (show ¬ (s ∈ out_cols ∧ s ∈ buildGwCols df) from fun hand => hbg hand.2)]
  have hcum : rowFoldF (addColIf (fun c => c)) assignNumRowF out_cols CUMULATIVE_COLS
      (fun t => if t ∈ out_cols ∧ t ∈ buildGwCols df then
        (if t = "gw" then Val.num (gw : ℚ) else r t) else Val.na) s = Val.na := by
    rw [rowFoldF_untouched _ _ s CUMULATIVE_COLS _ _ (fun cols' x r' hx => by
      simp only [assignNumRowF]
      rw [if_neg (show ¬ s = x from fun he => snap_cum_disjoint s hs (he ▸ hx))])]
    exact hmask
  by_cases hnl : s ∈ numeric_like_snapshot
  · obtain ⟨l₁, l₂, hsplit⟩ := List.append_of_mem hnl
    have hnd : (l₁ ++ s :: l₂).Nodup := hsplit ▸ numeric_like_nodup
    have hsl₁ : s ∉ l₁ := fun h =>
      (List.disjoint_of_nodup_append hnd) h (List.mem_cons_self s l₂)
    have hsl₂ : s ∉ l₂ := (List.nodup_cons.mp (List.nodup_append.mp hnd).2.1).1
    conv_lhs => rw [hsplit]
    rw [rowFoldF_target _ _ s l₁ l₂ _ _ (fun cols' x r' hx => by
      simp only [coerceIfPresentRowF]
      by_cases h : x ∈ cols'
      · rw [if_pos h, if_neg (show ¬ s = x from fun he => hsl₂ (he ▸ hx))]
      · rw [if_neg h])]
    simp only [coerceIfPresentRowF]
    have hconst : l₁.foldl (fun cols _ => cols)
        (CUMULATIVE_COLS.foldl (addColIf (fun c => c)) out_cols)
        = CUMULATIVE_COLS.foldl (addColIf (fun c => c)) out_cols :=
      foldl_fixed _ _ (fun x hx acc => rfl) _
    have hmem : s ∈ l₁.foldl (fun cols _ => cols)
        (CUMULATIVE_COLS.foldl (addColIf (fun c => c)) out_cols) := by
      rw [hconst, mem_foldl_addColIf]
      exact Or.inl (snap_sub_out s hs)
    rw [if_pos hmem, if_pos trivial]
    rw [rowFoldF_untouched _ _ s l₁ _ _ (fun cols' x r' hx => by
      simp only [coerceIfPresentRowF]
      by_cases h : x ∈ cols'
      · rw [if_pos h, if_neg (show ¬ s = x from fun he => hsl₁ (he ▸ hx))]
      · rw [if_neg h])]
    rw [hcum]
    rfl
  · rw [rowFoldF_untouched _ _ s numeric_like_snapshot _ _ (fun cols' x r' hx => by
      simp only [coerceIfPresentRowF]
      by_cases h : x ∈ cols'
      · rw [if_pos h, if_neg (show ¬ s = x from fun he => hnl (he ▸ hx))]
      · rw [if_neg h])]
    exact hcum

/-- The gameweek tag of every built snapshot row. -/
theorem buildRowF_gw (df : DataFrame) (gw : Int) (r : String → Val) :
    buildRowF df gw r "gw" = Val.num (gw : ℚ) := by
  have hbg : ("gw" : String) ∈ buildGwCols df := by
    unfold buildGwCols
    by_cases h : "gw" ∈ df.cols
    · rw [if_pos h]
      exact h
    · rw [if_neg h, List.mem_append, List.mem_singleton]
      exact Or.inr rfl
  unfold buildRowF
  rw [rowFoldF_untouched _ _ "gw" numeric_like_snapshot _ _ (fun cols' x r' hx => by
    simp only [coerceIfPresentRowF]
    by_cases h : x ∈ cols'
    · rw [if_pos h, if_neg (show ¬ ("gw" : String) = x from fun he =>
        gw_notin_numeric_like (he ▸ hx))]
    · rw [if_neg h])]
  rw [rowFoldF_untouched _ _ "gw" CUMULATIVE_COLS _ _ (fun cols' x r' hx => by
    simp only [assignNumRowF]
    rw [if_neg (show ¬ ("gw" : String) = x from fun he => gw_notin_cum (he ▸ hx))])]
  rw [if_pos ⟨gw_in_out, hbg⟩, if_pos rfl]

/-- C7: on a non-empty input the snapshot builder always emits the full
declared schema in its fixed order, one row per input record; cumulative
cells are numerically coerced with zero for missing or unparseable input,
point-in-time cells missing from the input become null, and the gameweek
tag is stamped on every row. -/
theorem snapshot_builder_full_schema (df : DataFrame) (gw : Int)
    (hr : df.rows ≠ []) (hc : df.cols ≠ []) :
    (build_cumulative_playerstats_snapshot df gw).cols
      = ID_COLS ++ ["gw"] ++ SNAPSHOT_COLS ++ CUMULATIVE_COLS ∧
    (build_cumulative_playerstats_snapshot df gw).rows.length = df.rows.length ∧
    ∀ i, i < df.rows.length →
      (∀ c ∈ CUMULATIVE_COLS,
        cellAt (build_cumulative_playerstats_snapshot df gw) i c
          = Val.num (if c ∈ df.cols then toNumFill 0 (rowAt df i c) else 0)) ∧
      (∀ s ∈ SNAPSHOT_COLS, s ∉ df.cols →
        cellAt (build_cumulative_playerstats_snapshot df gw) i s = Val.na) ∧
      cellAt (build_cumulative_playerstats_snapshot df gw) i "gw" = Val.num (gw : ℚ) := by
  have hrows := build_rows_eq df gw hr hc
  refine ⟨build_cols_eq df gw hr hc, by rw [hrows, List.length_map], ?_⟩
  intro i hi
  refine ⟨?_, ?_, ?_⟩
  · intro c hcm
    rw [cellAt_of_rows_map_df hrows i hi c]
    exact buildRowF_cum df gw _ c hcm
  · intro s hsm hmiss
    rw [cellAt_of_rows_map_df hrows i hi s]
    exact buildRowF_snap_missing df gw _ s hsm hmiss
  · rw [cellAt_of_rows_map_df hrows i hi "gw"]
    exact buildRowF_gw df gw _

/-- An input elements table with a non-numeric cumulative cell and most of
the schema missing. -/
def elementsEx7 : DataFrame :=
  { cols := ["id", "minutes"],
    rows := [fun s => if s = "id" then Val.num 7 else Val.str "x"] }

theorem snapshot_builder_full_schema_witness :
    elementsEx7.rows ≠ [] ∧ elementsEx7.cols ≠ [] ∧
    ((build_cumulative_playerstats_snapshot elementsEx7 3).cols
        = ID_COLS ++ ["gw"] ++ SNAPSHOT_COLS ++ CUMULATIVE_COLS ∧
      (build_cumulative_playerstats_snapshot elementsEx7 3).rows.length
        = elementsEx7.rows.length ∧
      ∀ i, i < elementsEx7.rows.length →
        (∀ c ∈ CUMULATIVE_COLS,
          cellAt (build_cumulative_playerstats_snapshot elementsEx7 3) i c
            = Val.num (if c ∈ elementsEx7.cols then toNumFill 0 (rowAt elementsEx7 i c) else 0)) ∧
        (∀ s ∈ SNAPSHOT_COLS, s ∉ elementsEx7.cols →
          cellAt (build_cumulative_playerstats_snapshot elementsEx7 3) i s = Val.na) ∧
        cellAt (build_cumulative_playerstats_snapshot elementsEx7 3) i "gw"
          = Val.num ((3 : Int) : ℚ)) :=
  ⟨List.cons_ne_nil _ _, by decide,
    snapshot_builder_full_schema elementsEx7 3 (List.cons_ne_nil _ _) (by decide)⟩

end FPL
